import Mathlib

/-! UART file receiver: Lean embedding.

Shallow embedding of `src/ack/uart_file_receiver.c` (and of its near-duplicate
`src/ack/nuvoton_uart_file_receiver.c`, whose protocol code is the same).

* bytes, `uint16_t` and `uint32_t` values are natural numbers; every place where
  the C arithmetic can wrap carries an explicit `% 2 ^ w`;
* C arrays are lists of bytes; an access outside the array is undefined in C and
  is `none` here, so every function that touches memory returns an `Option`;
* the global `file_info` is passed explicitly, and what a handler does to the
  outside world (bytes given to `uart_send_byte`, calls of `save_file`) is
  returned as an ordered list of events.
-/

namespace UartFileReceiver

/-! ## Constants of `uart_file_receiver.h` -/

def UART_HEADER : Nat := 0x81
def CMD_FILE_START : Nat := 0x90
def CMD_FILE_DATA : Nat := 0x91
def CMD_FILE_END : Nat := 0x92
def CMD_ACK : Nat := 0x93
def CMD_NACK : Nat := 0x94
def CMD_READY : Nat := 0x95

def MAX_FILENAME_LEN : Nat := 64
def MAX_PACKET_SIZE : Nat := 256
def MAX_FILE_SIZE : Nat := 10240
def PACKET_DATA_SIZE : Nat := 256

/-! ## Data model -/

/-- The struct `file_transfer_t`: `filename` is `char[64]`, `file_size` a
`uint32_t`, the two counters are `uint16_t`, `file_data` is `uint8_t[10240]`. -/
structure file_transfer_t where
  filename : List Nat
  file_size : Nat
  total_packets : Nat
  received_packets : Nat
  file_data : List Nat
  transfer_active : Bool
deriving DecidableEq

/-- Observable effects, in program order. `tx b` is one call `uart_send_byte(b)`,
`save` one call `save_file(filename, data, size)` with the arrays the two
pointers address, `call` one handler invocation made by `uart_receive_loop`
(command byte, the scratch buffer and the length passed). -/
inductive Event where
  | tx (byte : Nat)
  | save (filename : List Nat) (data : List Nat) (size : Nat)
  | call (command : Nat) (packet : List Nat) (length : Nat)
deriving DecidableEq

/-- The globals of the receiver: `file_info`, `uart_buffer[256]`,
`buffer_index` (`uint16_t`) and `header_found`. -/
structure Receiver where
  file_info : file_transfer_t
  uart_buffer : List Nat
  buffer_index : Nat
  header_found : Bool
deriving DecidableEq

/-- Sizes of the two arrays of a `file_transfer_t`. -/
def file_transfer_t.wf (f : file_transfer_t) : Prop :=
  f.filename.length = MAX_FILENAME_LEN ∧ f.file_data.length = MAX_FILE_SIZE

/-- A list of bytes: every element fits a `uint8_t`. -/
def IsBytes (l : List Nat) : Prop := ∀ b ∈ l, b < 256

instance (l : List Nat) : Decidable (IsBytes l) := by
  unfold IsBytes
  infer_instance

/-- The state `memset(&file_info, 0, sizeof(file_info))` leaves. -/
def zero_file_info : file_transfer_t :=
  { filename := List.replicate MAX_FILENAME_LEN 0
    file_size := 0
    total_packets := 0
    received_packets := 0
    file_data := List.replicate MAX_FILE_SIZE 0
    transfer_active := false }

/-! ## `calculate_crc` -/

/-- The `for` loop of `calculate_crc`: `remaining` is `length - i`, `crc` the
`uint8_t` accumulator (`crc += data[i]` wraps modulo 256). The index `i` is a
`uint16_t`, as is `length`, so `i + 1` never wraps while `i < length`. -/
def calculate_crc_loop (data : List Nat) : (remaining i crc : Nat) → Option Nat
  | 0, _, crc => some crc
  | k + 1, i, crc =>
    match data[i]? with
    | none => none
    | some b => calculate_crc_loop data k (i + 1) ((crc + b) % 256)

/-- The function `uint8_t calculate_crc(uint8_t* data, uint16_t length)`. -/
def calculate_crc (data : List Nat) (length : Nat) : Option Nat :=
  calculate_crc_loop data length 0 0

/-! ## Transmit side -/

/-- The function `uart_send_byte`: hands one byte to the transport. -/
def uart_send_byte (byte : Nat) : List Event := [Event.tx byte]

/-- The loop of `uart_send_packet`, `remaining = length - i`. -/
def uart_send_packet_loop (data : List Nat) : (remaining i : Nat) → Option (List Event)
  | 0, _ => some []
  | k + 1, i =>
    match data[i]? with
    | none => none
    | some b =>
      match uart_send_packet_loop data k (i + 1) with
      | none => none
      | some rest => some (uart_send_byte b ++ rest)

/-- The function `uart_send_packet(data, length)`. -/
def uart_send_packet (data : List Nat) (length : Nat) : Option (List Event) :=
  uart_send_packet_loop data length 0

/-- Shared body of `send_ack`, `send_nack`, `send_ready`: a 3-byte array
`{UART_HEADER, cmd, 0}` whose last byte is overwritten by the checksum of the
first two, then sent. -/
def send_response (cmd : Nat) : Option (List Event) :=
  let pkt := [UART_HEADER, cmd, 0]
  match calculate_crc pkt 2 with
  | none => none
  | some crc => uart_send_packet (pkt.set 2 crc) 3

def send_ack : Option (List Event) := send_response CMD_ACK
def send_nack : Option (List Event) := send_response CMD_NACK
def send_ready : Option (List Event) := send_response CMD_READY

/-- The three response frames as event lists. -/
def ACK : List Event := [Event.tx 0x81, Event.tx 0x93, Event.tx 0x14]
def NACK : List Event := [Event.tx 0x81, Event.tx 0x94, Event.tx 0x15]
def READY : List Event := [Event.tx 0x81, Event.tx 0x95, Event.tx 0x16]

/-! ## Memory helpers -/

/-- Byte-wise `memcpy(&dst[doff], &src[soff], n)`; `none` as soon as a read leaves
`src` or a write leaves `dst`. -/
def memcpy (dst : List Nat) (doff : Nat) (src : List Nat) (soff : Nat) : Nat → Option (List Nat)
  | 0 => some dst
  | n + 1 =>
    match memcpy dst doff src soff n with
    | none => none
    | some d =>
      match src[soff + n]? with
      | none => none
      | some v => if doff + n < d.length then some (d.set (doff + n) v) else none

/-- Array store `a[i] = v`; `none` outside the array. -/
def store (a : List Nat) (i v : Nat) : Option (List Nat) :=
  if i < a.length then some (a.set i v) else none

/-! ## Field decoding -/

/-- Big-endian `uint32_t` read of `handle_file_start`:
`((uint32_t)b3 << 24) | ((uint32_t)b2 << 16) | ((uint32_t)b1 << 8) | (uint32_t)b0`. -/
def be32 (b3 b2 b1 b0 : Nat) : Nat :=
  ((b3 <<< 24) % 2 ^ 32) ||| ((b2 <<< 16) % 2 ^ 32) ||| ((b1 <<< 8) % 2 ^ 32) ||| (b0 % 2 ^ 32)

/-- Big-endian `uint16_t` read `((uint16_t)hi << 8) | lo`, stored in a `uint16_t`. -/
def be16 (hi lo : Nat) : Nat := ((hi <<< 8) ||| lo) % 2 ^ 16

/-- The value `((uint32_t)(packet_num - 1)) * PACKET_DATA_SIZE` of `handle_file_data`:
`packet_num - 1` is an `int`, its conversion to `uint32_t` and the product are
modulo `2 ^ 32`. -/
def data_offset (packet_num : Nat) : Nat :=
  ((packet_num + 2 ^ 32 - 1) % 2 ^ 32 * PACKET_DATA_SIZE) % 2 ^ 32

/-! ## Handlers -/

/-- The function `handle_file_start(packet, length)` acting on `file_info`. -/
def handle_file_start (file_info : file_transfer_t) (packet : List Nat) (length : Nat) :
    Option (file_transfer_t × List Event) :=
  if length < 8 then do
    let ev ← send_nack
    some (file_info, ev)
  else do
    let filename_len ← packet[2]?
    if filename_len > MAX_FILENAME_LEN - 1 ∨ length < 7 + filename_len then
      let ev ← send_nack
      some (file_info, ev)
    else
      -- memcpy(file_info.filename, &packet[3], filename_len); filename[filename_len] = 0
      let name ← memcpy file_info.filename 0 packet 3 filename_len
      let name ← store name filename_len 0
      let b3 ← packet[3 + filename_len]?
      let b2 ← packet[4 + filename_len]?
      let b1 ← packet[5 + filename_len]?
      let b0 ← packet[6 + filename_len]?
      let file_size := be32 b3 b2 b1 b0
      if file_size > MAX_FILE_SIZE then
        let ev ← send_nack
        some ({ file_info with filename := name }, ev)
      else
        let opened : file_transfer_t :=
          { filename := name
            file_size := file_size
            total_packets := ((file_size + PACKET_DATA_SIZE - 1) % 2 ^ 32 / PACKET_DATA_SIZE) % 2 ^ 16
            received_packets := 0
            file_data := List.replicate MAX_FILE_SIZE 0
            transfer_active := true }
        let received_crc ← packet[7 + filename_len]?
        let calculated_crc ← calculate_crc packet (7 + filename_len)
        if received_crc = calculated_crc then
          let ev ← send_ready
          some (opened, ev)
        else
          let ev ← send_nack
          some ({ opened with transfer_active := false }, ev)

/-- The function `handle_file_data(packet, length)` acting on `file_info`. -/
def handle_file_data (file_info : file_transfer_t) (packet : List Nat) (length : Nat) :
    Option (file_transfer_t × List Event) :=
  if file_info.transfer_active = false then do
    let ev ← send_nack
    some (file_info, ev)
  else if length < 6 then do
    let ev ← send_nack
    some (file_info, ev)
  else do
    let hi ← packet[2]?
    let lo ← packet[3]?
    let packet_num := be16 hi lo
    let data_len ← packet[4]?
    if data_len > PACKET_DATA_SIZE ∨ length < 5 + data_len + 1 then
      let ev ← send_nack
      some (file_info, ev)
    else
      let offset := data_offset packet_num
      if (offset + data_len) % 2 ^ 32 > MAX_FILE_SIZE then
        let ev ← send_nack
        some (file_info, ev)
      else
        let data ← memcpy file_info.file_data offset packet 5 data_len
        let received_crc ← packet[5 + data_len]?
        let calculated_crc ← calculate_crc packet (5 + data_len)
        if received_crc = calculated_crc then
          let ev ← send_ack
          some ({ file_info with
                    file_data := data
                    received_packets := (file_info.received_packets + 1) % 2 ^ 16 }, ev)
        else
          let ev ← send_nack
          some ({ file_info with file_data := data }, ev)

/-- The function `save_file(filename, data, size)`: the storage sink, seen as
one event carrying the arrays behind the two pointers and the size. -/
def save_file (filename data : List Nat) (size : Nat) : List Event :=
  [Event.save filename data size]

/-- The function `handle_file_end(packet, length)` acting on `file_info`. The
comparison of `received_packets` with the declared count only prints a warning. -/
def handle_file_end (file_info : file_transfer_t) (packet : List Nat) (length : Nat) :
    Option (file_transfer_t × List Event) :=
  if file_info.transfer_active = false then do
    let ev ← send_nack
    some (file_info, ev)
  else if length < 5 then do
    let ev ← send_nack
    some (file_info, ev)
  else do
    let hi ← packet[2]?
    let lo ← packet[3]?
    let _total_packets := be16 hi lo
    let received_crc ← packet[4]?
    let calculated_crc ← calculate_crc packet 4
    if received_crc ≠ calculated_crc then
      let ev ← send_nack
      some ({ file_info with transfer_active := false }, ev)
    else
      let saved := save_file file_info.filename file_info.file_data file_info.file_size
      let ev ← send_ack
      -- file_info.transfer_active = false; memset(&file_info, 0, sizeof(file_info))
      some (zero_file_info, saved ++ ev)

/-! ## Receive loop -/

/-- The value of `expected_length` (`uint16_t`) computed inside the
`buffer_index == 2` block of `uart_receive_loop`. -/
def expected_length (uart_buffer : List Nat) (buffer_index command : Nat) : Option Nat :=
  if command = CMD_FILE_START then
    if buffer_index ≥ 3 then do
      let filename_len ← uart_buffer[2]?
      some ((3 + filename_len + 4 + 1) % 2 ^ 16)
    else some 0
  else if command = CMD_FILE_DATA then
    if buffer_index ≥ 5 then do
      let data_len ← uart_buffer[4]?
      some ((5 + data_len + 1) % 2 ^ 16)
    else some 0
  else if command = CMD_FILE_END then some 5
  else some 0

/-- The dispatch `if (command == CMD_FILE_START) handle_file_start(...) else if ...`
of `uart_receive_loop`; each call is recorded by a `call` event placed before the
events of the handler. -/
def dispatch (file_info : file_transfer_t) (uart_buffer : List Nat) (buffer_index command : Nat) :
    Option (file_transfer_t × List Event) :=
  if command = CMD_FILE_START then do
    let (f, ev) ← handle_file_start file_info uart_buffer buffer_index
    some (f, Event.call command uart_buffer buffer_index :: ev)
  else if command = CMD_FILE_DATA then do
    let (f, ev) ← handle_file_data file_info uart_buffer buffer_index
    some (f, Event.call command uart_buffer buffer_index :: ev)
  else if command = CMD_FILE_END then do
    let (f, ev) ← handle_file_end file_info uart_buffer buffer_index
    some (f, Event.call command uart_buffer buffer_index :: ev)
  else some (file_info, [])

/-- One iteration of the `while (1)` of `uart_receive_loop` in which
`receive_byte` delivered `byte`. -/
def receive_step (r : Receiver) (byte : Nat) : Option (Receiver × List Event) :=
  if byte = UART_HEADER then do
    -- buffer_index = 0; header_found = true; uart_buffer[buffer_index++] = byte; continue
    let buf ← store r.uart_buffer 0 byte
    some ({ r with uart_buffer := buf, buffer_index := 1, header_found := true }, [])
  else if r.header_found = true ∧ r.buffer_index < MAX_PACKET_SIZE then do
    let buf ← store r.uart_buffer r.buffer_index byte
    let idx := (r.buffer_index + 1) % 2 ^ 16
    let r1 : Receiver := { r with uart_buffer := buf, buffer_index := idx }
    if idx = 2 then
      let command ← buf[1]?
      let expected ← expected_length buf idx command
      if expected > 0 ∧ idx ≥ expected then
        let (f, ev) ← dispatch r1.file_info buf idx command
        some ({ r1 with file_info := f, buffer_index := 0, header_found := false }, ev)
      else some (r1, [])
    else some (r1, [])
  else if r.buffer_index ≥ MAX_PACKET_SIZE then
    some ({ r with buffer_index := 0, header_found := false }, [])
  else some (r, [])

/-- The per-byte step run over a finite byte stream, events concatenated in order. -/
def feed (r : Receiver) : List Nat → Option (Receiver × List Event)
  | [] => some (r, [])
  | b :: bs =>
    match receive_step r b with
    | none => none
    | some (r1, ev) =>
      match feed r1 bs with
      | none => none
      | some (r2, ev2) => some (r2, ev ++ ev2)

/-- The function `init_uart_receiver`: both `memset`s and the two assignments. -/
def init_uart_receiver (_r : Receiver) : Receiver :=
  { file_info := zero_file_info
    uart_buffer := List.replicate MAX_PACKET_SIZE 0
    buffer_index := 0
    header_found := false }

/-- The receiver right after `init_uart_receiver` (the globals start zeroed). -/
def initial : Receiver :=
  init_uart_receiver
    { file_info := zero_file_info, uart_buffer := List.replicate MAX_PACKET_SIZE 0,
      buffer_index := 0, header_found := false }

/-! ## Frame builders (wire format of the sender) -/

/-- Sum of the bytes modulo 256, the checksum the sender appends. -/
def checksum (bytes : List Nat) : Nat := bytes.sum % 256

/-- The four big-endian bytes of a 32-bit value. -/
def be32_bytes (s : Nat) : List Nat :=
  [s / 2 ^ 24 % 256, s / 2 ^ 16 % 256, s / 2 ^ 8 % 256, s % 256]

/-- The frame `[0x81, 0x90, n, filename, size(4), c]`. -/
def file_start_frame (filename : List Nat) (size c : Nat) : List Nat :=
  [UART_HEADER, CMD_FILE_START, filename.length] ++ filename ++ be32_bytes size ++ [c]

/-- The frame `[0x81, 0x91, hi, lo, len, data, c]`. -/
def file_data_frame (hi lo : Nat) (data : List Nat) (c : Nat) : List Nat :=
  [UART_HEADER, CMD_FILE_DATA, hi, lo, data.length] ++ data ++ [c]

/-- The frame `[0x81, 0x92, hi, lo, c]`. -/
def file_end_frame (hi lo c : Nat) : List Nat := [UART_HEADER, CMD_FILE_END, hi, lo, c]

/-! ## Reading a trace -/

/-- The calls of `save_file` recorded in a trace, in order. -/
def save_calls : List Event → List (List Nat × List Nat × Nat)
  | [] => []
  | Event.save n d s :: es => (n, d, s) :: save_calls es
  | _ :: es => save_calls es

/-- The bytes given to `uart_send_byte` in a trace, in order. -/
def sent_bytes : List Event → List Nat
  | [] => []
  | Event.tx b :: es => b :: sent_bytes es
  | _ :: es => sent_bytes es

/-- The handler invocations recorded in a trace, in order. -/
def handler_calls : List Event → List (Nat × List Nat × Nat)
  | [] => []
  | Event.call c p l :: es => (c, p, l) :: handler_calls es
  | _ :: es => handler_calls es

/-! ## Sessions and frames of the scenarios -/

/-- The filename `"a.txt"` as bytes. -/
def a_txt : List Nat := [97, 46, 116, 120, 116]

/-- The ten payload bytes used in the scenarios. -/
def ten_bytes : List Nat := [1, 2, 3, 4, 5, 6, 7, 8, 9, 10]

/-- The session after Scenario 1 (FILE_START `"a.txt"`, size 10). -/
def session_started : file_transfer_t :=
  { filename := a_txt ++ List.replicate 59 0
    file_size := 10
    total_packets := 1
    received_packets := 0
    file_data := List.replicate MAX_FILE_SIZE 0
    transfer_active := true }

/-- An active session whose `uint16_t` counter `received_packets` holds its
largest value, as after 65535 acknowledged FILE_DATA frames. -/
def session_counter_max : file_transfer_t :=
  { session_started with received_packets := 65535 }

/-- The FILE_START frame of Scenario 1: `"a.txt"`, declared size 10. -/
def scenario1_frame : List Nat :=
  file_start_frame a_txt 10 (checksum ([0x81, 0x90, 5] ++ a_txt ++ be32_bytes 10))

/-- The FILE_DATA frame of Scenario 2: sequence number 1, ten payload bytes. -/
def scenario2_frame : List Nat :=
  file_data_frame 0 1 ten_bytes (checksum ([0x81, 0x91, 0, 1, 10] ++ ten_bytes))

/-- The FILE_END frame of Scenario 3: one packet declared. -/
def scenario3_frame : List Nat := file_end_frame 0 1 (checksum [0x81, 0x92, 0, 1])

/-- The FILE_START frame of Scenario 4: `"a.txt"`, declared size 20000. -/
def scenario4_frame : List Nat :=
  file_start_frame a_txt 20000 (checksum ([0x81, 0x90, 5] ++ a_txt ++ be32_bytes 20000))

/-! ## Sequences of handler invocations -/

/-- The three frame handlers. -/
inductive Handler where
  | file_start
  | file_data
  | file_end
deriving DecidableEq

/-- One handler invocation: the handler and its arguments `packet`, `length`. -/
structure Invocation where
  handler : Handler
  packet : List Nat
  length : Nat

/-- One invocation applied to `file_info`. -/
def invoke (f : file_transfer_t) (c : Invocation) : Option (file_transfer_t × List Event) :=
  match c.handler with
  | Handler.file_start => handle_file_start f c.packet c.length
  | Handler.file_data => handle_file_data f c.packet c.length
  | Handler.file_end => handle_file_end f c.packet c.length

/-- A finite sequence of invocations applied in order, events concatenated. -/
def run (f : file_transfer_t) : List Invocation → Option (file_transfer_t × List Event)
  | [] => some (f, [])
  | c :: cs =>
    match invoke f c with
    | none => none
    | some (g, ev) =>
      match run g cs with
      | none => none
      | some (h, ev2) => some (h, ev ++ ev2)

/-- The receiver after the bytes `0x81 0x91 0x00` from the initial state:
accumulating, three bytes buffered. -/
def accumulating_three : Receiver :=
  { file_info := zero_file_info
    uart_buffer := [0x81, 0x91, 0] ++ List.replicate 253 0
    buffer_index := 3
    header_found := true }

/-- The filename `"b.txt"` as bytes. -/
def b_txt : List Nat := [98, 46, 116, 120, 116]

/-- A well-formed FILE_START frame for `"b.txt"`, declared size 300. -/
def second_start_frame : List Nat :=
  file_start_frame b_txt 300 (checksum ([0x81, 0x90, 5] ++ b_txt ++ be32_bytes 300))

/-- The session after Scenarios 1 and 2: active, one packet counted, the ten
payload bytes at the start of the buffer. -/
def session_with_data : file_transfer_t :=
  { session_started with
      received_packets := 1
      file_data := ten_bytes ++ List.replicate 10230 0 }

/-- The same session once its `transfer_active` flag is cleared. -/
def session_aborted : file_transfer_t :=
  { session_with_data with transfer_active := false }

/-- The session `handle_file_start` opens for `"b.txt"`, declared size 300. -/
def session_b : file_transfer_t :=
  { filename := b_txt ++ List.replicate 59 0
    file_size := 300
    total_packets := 2
    received_packets := 0
    file_data := List.replicate MAX_FILE_SIZE 0
    transfer_active := true }

/-- A FILE_START packet one byte short: header, command, filename length 1,
`"a"`, declared size 10, and no checksum byte (8 bytes where the wire format has 9). -/
def short_start_packet : List Nat := [0x81, 0x90, 1, 97, 0, 0, 0, 10]

/-- The session opened from `short_start_packet`: filename `"a"`, size 10. -/
def session_short : file_transfer_t :=
  { filename := [97] ++ List.replicate 63 0
    file_size := 10
    total_packets := 1
    received_packets := 0
    file_data := List.replicate MAX_FILE_SIZE 0
    transfer_active := true }

/-! ## The checks a handler makes before it accepts -/

/-- Every check of `handle_file_start` passes: `length ≥ 8`, the filename length
`n = packet[2]` is at most 63 and `length ≥ 7 + n`, the big-endian declared size is
at most 10240, and `packet[7 + n]` is the checksum of the `7 + n` bytes before it. -/
def start_checks_pass (packet : List Nat) (length : Nat) : Prop :=
  8 ≤ length ∧ ∃ n b3 b2 b1 b0, packet[2]? = some n ∧ n ≤ 63 ∧ 7 + n ≤ length ∧
    packet[3 + n]? = some b3 ∧ packet[4 + n]? = some b2 ∧ packet[5 + n]? = some b1 ∧
    packet[6 + n]? = some b0 ∧ be32 b3 b2 b1 b0 ≤ 10240 ∧
    packet[7 + n]? = some ((packet.take (7 + n)).sum % 256)

/-- Every check of `handle_file_data` passes: the session is active,
`length ≥ 6`, the data length `dl = packet[4]` is at most 256 and `length ≥ 6 + dl`,
the 32-bit bounds test does not fire, and `packet[5 + dl]` is the checksum of the
`5 + dl` bytes before it. -/
def data_checks_pass (f : file_transfer_t) (packet : List Nat) (length : Nat) : Prop :=
  f.transfer_active = true ∧ 6 ≤ length ∧ ∃ hi lo dl, packet[2]? = some hi ∧
    packet[3]? = some lo ∧ packet[4]? = some dl ∧ dl ≤ 256 ∧ 6 + dl ≤ length ∧
    ¬ ((data_offset (be16 hi lo) + dl) % 2 ^ 32 > MAX_FILE_SIZE) ∧
    packet[5 + dl]? = some ((packet.take (5 + dl)).sum % 256)

/-- Every check of `handle_file_end` passes: the session is active,
`length ≥ 5`, and `packet[4]` is the checksum of the four bytes before it. -/
def end_checks_pass (f : file_transfer_t) (packet : List Nat) (length : Nat) : Prop :=
  f.transfer_active = true ∧ 5 ≤ length ∧ packet[4]? = some ((packet.take 4).sum % 256)

/-! ## Counting acknowledged data frames along a run -/

/-- The number of FILE_DATA invocations answered with ACK since the last
FILE_START answered with READY, updated by one invocation `c` whose events were
`ev`; `n` is the count before it. -/
def count_step (c : Invocation) (ev : List Event) (n : Nat) : Nat :=
  match c.handler with
  | Handler.file_start => if ev = READY then 0 else n
  | Handler.file_data => if ev = ACK then n + 1 else n
  | Handler.file_end => n

/-- The invocations applied in order as in `run`, carrying that count. -/
def run_counting (f : file_transfer_t) (n : Nat) : List Invocation → Option (file_transfer_t × Nat)
  | [] => some (f, n)
  | c :: cs =>
    match invoke f c with
    | none => none
    | some (g, ev) => run_counting g (count_step c ev n) cs

/-- The session of Scenarios 1 and 2 with `received_packets = k`. -/
def data_session (k : Nat) : file_transfer_t :=
  { session_with_data with received_packets := k }

/-- The invocation of `handle_file_start` on the frame of Scenario 1. -/
def start_call : Invocation := ⟨Handler.file_start, scenario1_frame, 13⟩

/-- The invocation of `handle_file_data` on the frame of Scenario 2. -/
def data_call : Invocation := ⟨Handler.file_data, scenario2_frame, 16⟩

/-! ## The completion test at an arbitrary index -/

/-- The completion test of `uart_receive_loop` (`command = uart_buffer[1]`, the
expected length of lines 303-322, then `expected_length > 0 && buffer_index >=
expected_length`) taken at an arbitrary `buffer_index`: whether the bytes
buffered so far are a complete frame, of length `3 + filename_len + 4 + 1`,
`5 + data_len + 1` or 5. The loop itself reaches this test only at index 2. -/
def frame_complete (uart_buffer : List Nat) (buffer_index : Nat) : Bool :=
  match uart_buffer[1]? with
  | none => false
  | some command =>
    match expected_length uart_buffer buffer_index command with
    | none => false
    | some expected => decide (expected > 0 ∧ buffer_index ≥ expected)

end UartFileReceiver


namespace UartFileReceiver

/-! ## Basic facts: responses and checksum -/

theorem send_ack_eq : send_ack = some ACK := by decide

theorem send_nack_eq : send_nack = some NACK := by decide

theorem send_ready_eq : send_ready = some READY := by decide

/-- Loop invariant of `calculate_crc`: from index `i` with accumulator `crc`,
`k` further iterations inside the array add the next `k` bytes modulo 256. -/
theorem calculate_crc_loop_eq (data : List Nat) :
    ∀ (k i crc : Nat), i + k ≤ data.length → crc < 256 →
      calculate_crc_loop data k i crc = some ((crc + ((data.drop i).take k).sum) % 256) := by
  intro k
  induction k with
  | zero =>
    intro i crc _ hc
    simp [calculate_crc_loop, Nat.mod_eq_of_lt hc]
  | succ k ih =>
    intro i crc hi _
    have hlt : i < data.length := by omega
    have hstep := ih (i + 1) ((crc + data[i]) % 256) (by omega) (Nat.mod_lt _ (by norm_num))
    rw [calculate_crc_loop, List.getElem?_eq_getElem hlt]
    simp only [hstep, List.drop_eq_getElem_cons hlt, List.take_succ_cons, List.sum_cons]
    congr 1
    omega

theorem calculate_crc_eq (data : List Nat) (length : Nat) (h : length ≤ data.length) :
    calculate_crc data length = some ((data.take length).sum % 256) := by
  have := calculate_crc_loop_eq data length 0 0 (by omega) (by norm_num)
  simpa [calculate_crc] using this

/-- The checksum of a prefix only depends on the prefix. -/
theorem calculate_crc_append (xs ys : List Nat) :
    calculate_crc (xs ++ ys) xs.length = some (checksum xs) := by
  rw [calculate_crc_eq _ _ (by simp)]
  simp [checksum]

/-! ## Basic facts: memory and field decoding -/

/-- A `memcpy` whose source and destination ranges lie inside their arrays
succeeds, keeps the size of the destination, and changes exactly the
destination range. -/
theorem memcpy_spec (dst : List Nat) (doff : Nat) (src : List Nat) (soff : Nat) :
    ∀ n, doff + n ≤ dst.length → soff + n ≤ src.length →
      ∃ d, memcpy dst doff src soff n = some d ∧ d.length = dst.length ∧
        ∀ i, d[i]? = if doff ≤ i ∧ i < doff + n then src[soff + (i - doff)]? else dst[i]? := by
  intro n
  induction n with
  | zero =>
    intro _ _
    refine ⟨dst, rfl, rfl, ?_⟩
    intro i
    have : ¬ (doff ≤ i ∧ i < doff + 0) := by omega
    rw [if_neg this]
  | succ n ih =>
    intro hd hs
    obtain ⟨d, hd1, hd2, hd3⟩ := ih (by omega) (by omega)
    have hsrc : soff + n < src.length := by omega
    have hdst : doff + n < d.length := by omega
    refine ⟨d.set (doff + n) src[soff + n], ?_, by simp [hd2], ?_⟩
    · simp [memcpy, hd1, List.getElem?_eq_getElem hsrc, hdst]
    · intro i
      rw [List.getElem?_set]
      by_cases hi : doff + n = i
      · subst hi
        have h1 : doff ≤ doff + n ∧ doff + n < doff + (n + 1) := by omega
        simp [hdst, h1, List.getElem?_eq_getElem hsrc]
      · rw [if_neg hi, hd3 i]
        by_cases h2 : doff ≤ i ∧ i < doff + n
        · have h3 : doff ≤ i ∧ i < doff + (n + 1) := by omega
          rw [if_pos h2, if_pos h3]
        · have h3 : ¬ (doff ≤ i ∧ i < doff + (n + 1)) := by omega
          rw [if_neg h2, if_neg h3]

theorem be32_eq (b3 b2 b1 b0 : Nat) (h3 : b3 < 256) (h2 : b2 < 256) (h1 : b1 < 256)
    (h0 : b0 < 256) : be32 b3 b2 b1 b0 = b3 * 2 ^ 24 + b2 * 2 ^ 16 + b1 * 2 ^ 8 + b0 := by
  unfold be32
  simp only [Nat.shiftLeft_eq]
  rw [Nat.mod_eq_of_lt (by omega), Nat.mod_eq_of_lt (by omega), Nat.mod_eq_of_lt (by omega),
    Nat.mod_eq_of_lt (by omega)]
  have e1 : b3 * 2 ^ 24 ||| b2 * 2 ^ 16 = 2 ^ 16 * (b3 * 2 ^ 8 + b2) := by
    have := Nat.mul_add_lt_is_or (show b2 * 2 ^ 16 < 2 ^ 24 by omega) b3
    rw [Nat.mul_comm b3, ← this]
    ring
  have e2 : 2 ^ 16 * (b3 * 2 ^ 8 + b2) ||| b1 * 2 ^ 8 = 2 ^ 8 * (b3 * 2 ^ 16 + b2 * 2 ^ 8 + b1) := by
    have := Nat.mul_add_lt_is_or (show b1 * 2 ^ 8 < 2 ^ 16 by omega) (b3 * 2 ^ 8 + b2)
    rw [← this]
    ring
  have e3 := Nat.mul_add_lt_is_or (show b0 < 2 ^ 8 by omega) (b3 * 2 ^ 16 + b2 * 2 ^ 8 + b1)
  rw [e1, e2, ← e3]
  ring

theorem be32_be32_bytes (s : Nat) (h : s < 2 ^ 32) :
    be32 (s / 2 ^ 24 % 256) (s / 2 ^ 16 % 256) (s / 2 ^ 8 % 256) (s % 256) = s := by
  rw [be32_eq _ _ _ _ (Nat.mod_lt _ (by norm_num)) (Nat.mod_lt _ (by norm_num))
    (Nat.mod_lt _ (by norm_num)) (Nat.mod_lt _ (by norm_num))]
  omega

theorem be16_eq (hi lo : Nat) (hh : hi < 256) (hl : lo < 256) : be16 hi lo = hi * 256 + lo := by
  unfold be16
  have := Nat.mul_add_lt_is_or (show lo < 2 ^ 8 by omega) hi
  rw [Nat.shiftLeft_eq, Nat.mul_comm hi, ← this]
  omega

/-- For a sequence number of at least one the 32-bit offset is `(q - 1) * 256`. -/
theorem data_offset_pos (q : Nat) (h1 : 1 ≤ q) (h2 : q < 2 ^ 16) :
    data_offset q = (q - 1) * 256 := by
  unfold data_offset PACKET_DATA_SIZE
  omega

/-- Sequence number zero wraps to the 32-bit offset `0xFFFFFF00`. -/
theorem data_offset_zero : data_offset 0 = 0xFFFFFF00 := by decide

/-! ## C5: `calculate_crc` is the byte sum modulo 256 -/

/-- C5. For every array `data` and every `length` not exceeding its size,
`calculate_crc data length` returns the sum of the first `length` bytes modulo
256 (so `0` for `length = 0`), and extending the summed span by one byte `b`
gives `(previous checksum + b) mod 256`. -/
theorem calculate_crc_spec (data : List Nat) (length : Nat) (h : length ≤ data.length) :
    calculate_crc data length = some ((data.take length).sum % 256) ∧
    (length = 0 → calculate_crc data length = some 0) ∧
    ∀ b : Nat, calculate_crc (data.take length ++ [b]) (length + 1) =
      (calculate_crc data length).map (fun c => (c + b) % 256) := by
  refine ⟨calculate_crc_eq data length h, ?_, ?_⟩
  · intro h0
    subst h0
    rfl
  · intro b
    have hlen : (data.take length).length = length := by simp [h]
    rw [calculate_crc_eq data length h,
      calculate_crc_eq _ _ (by simp [hlen])]
    have : (data.take length ++ [b]).take (length + 1) = data.take length ++ [b] := by
      apply List.take_of_length_le
      simp [hlen]
    simp [this, List.sum_append, Nat.add_mod]

/-- C5 at `[0x81, 0x93, 0xFF]`: the first two bytes sum to `0x14` modulo 256. -/
theorem calculate_crc_spec_witness :
    calculate_crc [0x81, 0x93, 0xFF] 2 = some 0x14 ∧
    calculate_crc [0x81, 0x93, 0xFF] 3 = some 0x13 :=
  ⟨(calculate_crc_spec [0x81, 0x93, 0xFF] 2 (by decide)).1,
   (calculate_crc_spec [0x81, 0x93, 0xFF] 3 (by decide)).1⟩

/-! ## What `handle_file_start` computes -/

/-- The copy of the filename and its terminator: succeeds when the name fits
and lies inside the packet, and yields the old array with the first `n` bytes
replaced by `packet[3 .. 3 + n)` and byte `n` replaced by `0`. -/
theorem filename_copy (old packet : List Nat) (n : Nat) (hold : old.length = 64)
    (hn : n ≤ 63) (hp : 3 + n ≤ packet.length) :
    ∃ name, (memcpy old 0 packet 3 n).bind (fun d => store d n 0) = some name ∧
      name.length = 64 ∧
      ∀ i, name[i]? = if i < n then packet[3 + i]? else if i = n then some 0 else old[i]? := by
  obtain ⟨d, hd1, hd2, hd3⟩ := memcpy_spec old 0 packet 3 n (by omega) hp
  have hlt : n < d.length := by omega
  refine ⟨d.set n 0, by simp [hd1, store, hlt], by simp [hd2, hold], ?_⟩
  intro i
  rw [List.getElem?_set, hd3 i]
  by_cases h1 : n = i
  · subst h1
    simp [hlt]
  · by_cases h2 : i < n
    · have : 0 ≤ i ∧ i < 0 + n := by omega
      simp [h1, h2, this]
    · have : ¬ (0 ≤ i ∧ i < 0 + n) := by omega
      have h3 : ¬ i = n := fun h => h1 h.symm
      simp [h1, h2, h3, this]

/-- Past its two length checks `handle_file_start` copies the filename, then
rejects an oversize declared size keeping that copy, and otherwise opens the
session and lets the checksum byte `packet[7 + n]` decide between READY and
NACK with `transfer_active` cleared. -/
theorem handle_file_start_eq (f : file_transfer_t) (packet : List Nat)
    (length n b3 b2 b1 b0 : Nat) (hlen : 8 ≤ length) (hn : packet[2]? = some n)
    (hn63 : n ≤ 63) (hl : 7 + n ≤ length) (hname : f.filename.length = 64)
    (h3 : packet[3 + n]? = some b3) (h2 : packet[4 + n]? = some b2)
    (h1 : packet[5 + n]? = some b1) (h0 : packet[6 + n]? = some b0) :
    ∃ name, name.length = 64 ∧
      (∀ i, name[i]? =
        if i < n then packet[3 + i]? else if i = n then some 0 else f.filename[i]?) ∧
      handle_file_start f packet length =
        if be32 b3 b2 b1 b0 > 10240 then some ({ f with filename := name }, NACK)
        else (packet[7 + n]?).bind fun c =>
          if c = (packet.take (7 + n)).sum % 256 then
            some ({ filename := name, file_size := be32 b3 b2 b1 b0,
                    total_packets := ((be32 b3 b2 b1 b0 + 256 - 1) % 2 ^ 32 / 256) % 2 ^ 16,
                    received_packets := 0, file_data := List.replicate 10240 0,
                    transfer_active := true }, READY)
          else
            some ({ filename := name, file_size := be32 b3 b2 b1 b0,
                    total_packets := ((be32 b3 b2 b1 b0 + 256 - 1) % 2 ^ 32 / 256) % 2 ^ 16,
                    received_packets := 0, file_data := List.replicate 10240 0,
                    transfer_active := false }, NACK) := by
  have hplen : 6 + n < packet.length := by
    rcases List.getElem?_eq_some.mp h0 with ⟨h, _⟩
    exact h
  obtain ⟨name, hc, hl64, hget⟩ := filename_copy f.filename packet n hname hn63 (by omega)
  refine ⟨name, hl64, hget, ?_⟩
  have hcrc := calculate_crc_eq packet (7 + n) (by omega)
  have hA : ¬ length < 8 := by omega
  have hB : ¬ (n > MAX_FILENAME_LEN - 1 ∨ length < 7 + n) := by
    simp only [MAX_FILENAME_LEN]
    omega
  rw [Option.bind_eq_some] at hc
  obtain ⟨d, hd, hst⟩ := hc
  unfold handle_file_start
  simp only [hA, if_false, hn, Option.bind_eq_bind, Option.some_bind, hB, hd, hst, h3, h2, h1, h0,
    hcrc, send_nack_eq, send_ready_eq, MAX_FILE_SIZE, PACKET_DATA_SIZE]

/-! ## Shape of a FILE_START frame -/

theorem file_start_frame_eq (fn : List Nat) (s c : Nat) :
    file_start_frame fn s c =
      UART_HEADER :: CMD_FILE_START :: fn.length :: (fn ++ (be32_bytes s ++ [c])) := by
  simp [file_start_frame]

theorem getElem?_three_add (a b c : Nat) (l : List Nat) (i : Nat) :
    (a :: b :: c :: l)[3 + i]? = l[i]? := by
  rw [Nat.add_comm]
  simp only [List.getElem?_cons_succ]

theorem file_start_frame_length (fn : List Nat) (s c : Nat) :
    (file_start_frame fn s c).length = 8 + fn.length := by
  simp [file_start_frame, be32_bytes]
  omega

theorem file_start_frame_len_byte (fn : List Nat) (s c : Nat) :
    (file_start_frame fn s c)[2]? = some fn.length := by
  simp [file_start_frame]

theorem file_start_frame_name (fn : List Nat) (s c i : Nat) (h : i < fn.length) :
    (file_start_frame fn s c)[3 + i]? = fn[i]? := by
  rw [file_start_frame_eq, getElem?_three_add, List.getElem?_append_left h]

theorem file_start_frame_tail (fn : List Nat) (s c j : Nat) :
    (file_start_frame fn s c)[3 + (fn.length + j)]? = (be32_bytes s ++ [c])[j]? := by
  rw [file_start_frame_eq, getElem?_three_add, List.getElem?_append_right (by omega)]
  congr 1
  omega

theorem file_start_frame_size_bytes (fn : List Nat) (s c : Nat) :
    (file_start_frame fn s c)[3 + fn.length]? = some (s / 2 ^ 24 % 256) ∧
    (file_start_frame fn s c)[4 + fn.length]? = some (s / 2 ^ 16 % 256) ∧
    (file_start_frame fn s c)[5 + fn.length]? = some (s / 2 ^ 8 % 256) ∧
    (file_start_frame fn s c)[6 + fn.length]? = some (s % 256) ∧
    (file_start_frame fn s c)[7 + fn.length]? = some c := by
  have e4 : 4 + fn.length = 3 + (fn.length + 1) := by omega
  have e5 : 5 + fn.length = 3 + (fn.length + 2) := by omega
  have e6 : 6 + fn.length = 3 + (fn.length + 3) := by omega
  have e7 : 7 + fn.length = 3 + (fn.length + 4) := by omega
  have e3 := file_start_frame_tail fn s c 0
  rw [Nat.add_zero] at e3
  rw [e4, e5, e6, e7, e3, file_start_frame_tail, file_start_frame_tail, file_start_frame_tail,
    file_start_frame_tail]
  simp [be32_bytes]

theorem file_start_frame_take (fn : List Nat) (s c : Nat) :
    (file_start_frame fn s c).take (7 + fn.length) =
      [UART_HEADER, CMD_FILE_START, fn.length] ++ fn ++ be32_bytes s := by
  have : (([UART_HEADER, CMD_FILE_START, fn.length] ++ fn ++ be32_bytes s).length) =
      7 + fn.length := by
    simp [be32_bytes]
    omega
  unfold file_start_frame
  rw [← this, List.take_left]

/-! ## C2: FILE_START acceptance -/

/-- C2. For every filename of length `n ≤ 63` and every declared size
`s ≤ 10240`, `handle_file_start` on the frame `[0x81, 0x90, n, filename, s as 4
big-endian bytes, c]` of length `8 + n`, with `c` the sum of the preceding
`7 + n` bytes modulo 256, sends exactly READY and leaves `transfer_active` true,
the filename in the first `n` bytes of `filename` followed by a zero byte,
`file_size = s`, `total_packets = ceil (s / 256)`, `received_packets = 0` and a buffer
of 10240 zero bytes. It holds from every session whose filename array has its 64
bytes, inactive ones in particular. -/
theorem file_start_accepts (f : file_transfer_t) (fn : List Nat) (s : Nat)
    (hname : f.filename.length = 64) (hn : fn.length ≤ 63) (hs : s ≤ 10240) :
    ∃ g, handle_file_start f
        (file_start_frame fn s (checksum ([0x81, 0x90, fn.length] ++ fn ++ be32_bytes s)))
        (8 + fn.length) = some (g, READY) ∧
      g.transfer_active = true ∧ g.filename.take fn.length = fn ∧ g.filename[fn.length]? = some 0 ∧
      g.file_size = s ∧ g.total_packets = (s + 255) / 256 ∧
      (s ≤ g.total_packets * 256 ∧ g.total_packets * 256 < s + 256) ∧
      g.received_packets = 0 ∧ g.file_data = List.replicate 10240 0 := by
  obtain ⟨h3, h2, h1, h0, hc⟩ := file_start_frame_size_bytes fn s
    (checksum ([0x81, 0x90, fn.length] ++ fn ++ be32_bytes s))
  obtain ⟨name, hl, hget, heq⟩ := handle_file_start_eq f _ (8 + fn.length) fn.length _ _ _ _
    (by omega) (file_start_frame_len_byte fn s _) hn (by omega) hname h3 h2 h1 h0
  have hsz := be32_be32_bytes s (by omega)
  have hsmall : ¬ s > 10240 := by omega
  rw [hsz] at heq
  rw [if_neg hsmall, hc, Option.some_bind, file_start_frame_take] at heq
  have hck : checksum ([0x81, 0x90, fn.length] ++ fn ++ be32_bytes s) =
      ([UART_HEADER, CMD_FILE_START, fn.length] ++ fn ++ be32_bytes s).sum % 256 := rfl
  rw [if_pos hck] at heq
  refine ⟨_, heq, rfl, ?_, ?_, rfl, ?_, ?_, rfl, rfl⟩
  · apply List.ext_getElem?
    intro i
    by_cases hi : i < fn.length
    · rw [List.getElem?_take_of_lt hi, hget i, if_pos hi, file_start_frame_name fn s _ i hi]
    · rw [List.getElem?_take_eq_none (by omega), List.getElem?_eq_none (by omega)]
  · show name[fn.length]? = some 0
    rw [hget]
    simp
  · show ((s + 256 - 1) % 2 ^ 32 / 256) % 2 ^ 16 = (s + 255) / 256
    omega
  · show s ≤ ((s + 256 - 1) % 2 ^ 32 / 256) % 2 ^ 16 * 256 ∧
      ((s + 256 - 1) % 2 ^ 32 / 256) % 2 ^ 16 * 256 < s + 256
    omega

/-! ## What `handle_file_data` computes -/

/-- The bounds check of `handle_file_data` in 32-bit arithmetic, for a 16-bit
sequence number `q` and a one-byte length: it passes exactly when `q ≥ 1` and
`(q - 1) * 256 + dl ≤ 10240`. -/
theorem bounds_check_iff (q dl : Nat) (hq : q < 2 ^ 16) (hdl : dl < 256) :
    ¬ ((data_offset q + dl) % 2 ^ 32 > MAX_FILE_SIZE) ↔ 1 ≤ q ∧ (q - 1) * 256 + dl ≤ 10240 := by
  unfold data_offset PACKET_DATA_SIZE MAX_FILE_SIZE
  omega

theorem be16_lt (hi lo : Nat) : be16 hi lo < 2 ^ 16 := Nat.mod_lt _ (by norm_num)

/-- Unfolding of `handle_file_data` on an active session once the three header
fields can be read. -/
theorem handle_file_data_eq (f : file_transfer_t) (packet : List Nat) (length hi lo dl : Nat)
    (hact : f.transfer_active = true) (h6 : 6 ≤ length) (h2 : packet[2]? = some hi)
    (h3 : packet[3]? = some lo) (h4 : packet[4]? = some dl) :
    handle_file_data f packet length =
      if dl > 256 ∨ length < 5 + dl + 1 then some (f, NACK)
      else if (data_offset (be16 hi lo) + dl) % 2 ^ 32 > MAX_FILE_SIZE then some (f, NACK)
      else (memcpy f.file_data (data_offset (be16 hi lo)) packet 5 dl).bind fun data =>
        (packet[5 + dl]?).bind fun c =>
          (calculate_crc packet (5 + dl)).bind fun crc =>
            if c = crc then
              some ({ f with file_data := data,
                             received_packets := (f.received_packets + 1) % 2 ^ 16 }, ACK)
            else some ({ f with file_data := data }, NACK) := by
  have hA : ¬ length < 6 := by omega
  unfold handle_file_data
  simp only [hact, hA, if_false, h2, h3, h4, Option.bind_eq_bind, Option.some_bind,
    send_nack_eq, send_ack_eq, PACKET_DATA_SIZE, Bool.true_eq_false]

/-- On an active session, a packet that passes the length and bounds checks has
its payload copied to offset `(q - 1) * 256`, and the byte `packet[5 + dl]`
decides between ACK with the counter incremented and NACK. -/
theorem handle_file_data_write (f : file_transfer_t) (packet : List Nat)
    (length hi lo dl c : Nat) (hact : f.transfer_active = true)
    (hbuf : f.file_data.length = 10240) (h2 : packet[2]? = some hi)
    (h3 : packet[3]? = some lo) (h4 : packet[4]? = some dl) (hdl : dl < 256)
    (hlen : 6 + dl ≤ length) (hc : packet[5 + dl]? = some c)
    (hfit : ¬ ((data_offset (be16 hi lo) + dl) % 2 ^ 32 > MAX_FILE_SIZE)) :
    ∃ data, data.length = 10240 ∧
      (1 ≤ be16 hi lo ∧ data_offset (be16 hi lo) = (be16 hi lo - 1) * 256 ∧
        data_offset (be16 hi lo) + dl ≤ 10240) ∧
      memcpy f.file_data (data_offset (be16 hi lo)) packet 5 dl = some data ∧
      (∀ i, data[i]? =
        if data_offset (be16 hi lo) ≤ i ∧ i < data_offset (be16 hi lo) + dl then
          packet[5 + (i - data_offset (be16 hi lo))]?
        else f.file_data[i]?) ∧
      handle_file_data f packet length =
        if c = (packet.take (5 + dl)).sum % 256 then
          some ({ f with file_data := data,
                         received_packets := (f.received_packets + 1) % 2 ^ 16 }, ACK)
        else some ({ f with file_data := data }, NACK) := by
  have hplen : 5 + dl < packet.length := by
    rcases List.getElem?_eq_some.mp hc with ⟨h, _⟩
    exact h
  have hq := (bounds_check_iff _ dl (be16_lt hi lo) hdl).mp hfit
  have hoff := data_offset_pos _ hq.1 (be16_lt hi lo)
  obtain ⟨data, hm, hl, hget⟩ := memcpy_spec f.file_data (data_offset (be16 hi lo)) packet 5 dl
    (by omega) (by omega)
  refine ⟨data, by omega, ⟨hq.1, hoff, by omega⟩, hm, hget, ?_⟩
  have hB : ¬ (dl > 256 ∨ length < 5 + dl + 1) := by omega
  rw [handle_file_data_eq f packet length hi lo dl hact (by omega) h2 h3 h4, if_neg hB,
    if_neg hfit, hm, hc, calculate_crc_eq packet (5 + dl) (by omega)]
  rfl

/-- A packet made of bytes, at least as long as the `length` passed with it,
never makes `handle_file_data` leave an array: the handler returns. Either it
answers NACK with the session untouched, or it has copied `dl` bytes to the
range `[offset, offset + dl)` which lies inside the 10240-byte buffer. -/
theorem handle_file_data_total (f : file_transfer_t) (packet : List Nat) (length : Nat)
    (hbuf : f.file_data.length = 10240) (hbytes : IsBytes packet)
    (hlen : length ≤ packet.length) :
    ∃ g ev, handle_file_data f packet length = some (g, ev) ∧
      ((g = f ∧ ev = NACK) ∨
        ∃ hi lo dl, packet[2]? = some hi ∧ packet[3]? = some lo ∧ packet[4]? = some dl ∧
          1 ≤ be16 hi lo ∧ data_offset (be16 hi lo) = (be16 hi lo - 1) * 256 ∧
          data_offset (be16 hi lo) + dl ≤ 10240 ∧
          memcpy f.file_data (data_offset (be16 hi lo)) packet 5 dl = some g.file_data ∧
          g.file_data.length = 10240) := by
  by_cases hact : f.transfer_active = false
  · exact ⟨f, NACK, by simp [handle_file_data, hact, send_nack_eq], Or.inl ⟨rfl, rfl⟩⟩
  · have hact1 : f.transfer_active = true := by simpa using hact
    by_cases h6 : length < 6
    · exact ⟨f, NACK, by simp [handle_file_data, hact1, h6, send_nack_eq], Or.inl ⟨rfl, rfl⟩⟩
    · have e2 : packet[2]? = some packet[2] := List.getElem?_eq_getElem (by omega)
      have e3 : packet[3]? = some packet[3] := List.getElem?_eq_getElem (by omega)
      have e4 : packet[4]? = some packet[4] := List.getElem?_eq_getElem (by omega)
      have hdl : packet[4] < 256 := hbytes _ (List.getElem_mem _)
      by_cases hB : packet[4] > 256 ∨ length < 5 + packet[4] + 1
      · refine ⟨f, NACK, ?_, Or.inl ⟨rfl, rfl⟩⟩
        rw [handle_file_data_eq f packet length _ _ _ hact1 (by omega) e2 e3 e4, if_pos hB]
      · by_cases hfit : (data_offset (be16 packet[2] packet[3]) + packet[4]) % 2 ^ 32 > MAX_FILE_SIZE
        · refine ⟨f, NACK, ?_, Or.inl ⟨rfl, rfl⟩⟩
          rw [handle_file_data_eq f packet length _ _ _ hact1 (by omega) e2 e3 e4, if_neg hB,
            if_pos hfit]
        · have ec : packet[5 + packet[4]]? = some packet[5 + packet[4]] :=
            List.getElem?_eq_getElem (by omega)
          obtain ⟨data, hl, hq, hm, _, heq⟩ := handle_file_data_write f packet length _ _ _ _
            hact1 hbuf e2 e3 e4 hdl (by omega) ec hfit
          by_cases hcc : packet[5 + packet[4]] = (packet.take (5 + packet[4])).sum % 256
          · rw [if_pos hcc] at heq
            exact ⟨_, _, heq, Or.inr ⟨_, _, _, e2, e3, e4, hq.1, hq.2.1, hq.2.2, hm, hl⟩⟩
          · rw [if_neg hcc] at heq
            exact ⟨_, _, heq, Or.inr ⟨_, _, _, e2, e3, e4, hq.1, hq.2.1, hq.2.2, hm, hl⟩⟩

/-! ## Shape of a FILE_DATA frame -/

theorem file_data_frame_eq (hi lo : Nat) (data : List Nat) (c : Nat) :
    file_data_frame hi lo data c =
      UART_HEADER :: CMD_FILE_DATA :: hi :: lo :: data.length :: (data ++ [c]) := by
  simp [file_data_frame]

theorem getElem?_five_add (a b c d e : Nat) (l : List Nat) (i : Nat) :
    (a :: b :: c :: d :: e :: l)[5 + i]? = l[i]? := by
  rw [Nat.add_comm]
  simp only [List.getElem?_cons_succ]

theorem file_data_frame_payload (hi lo : Nat) (data : List Nat) (c i : Nat)
    (h : i < data.length) : (file_data_frame hi lo data c)[5 + i]? = data[i]? := by
  rw [file_data_frame_eq, getElem?_five_add, List.getElem?_append_left h]

theorem file_data_frame_crc_byte (hi lo : Nat) (data : List Nat) (c : Nat) :
    (file_data_frame hi lo data c)[5 + data.length]? = some c := by
  rw [file_data_frame_eq, getElem?_five_add, List.getElem?_append_right (by omega)]
  simp

theorem file_data_frame_take (hi lo : Nat) (data : List Nat) (c : Nat) :
    (file_data_frame hi lo data c).take (5 + data.length) =
      [UART_HEADER, CMD_FILE_DATA, hi, lo, data.length] ++ data := by
  have : ([UART_HEADER, CMD_FILE_DATA, hi, lo, data.length] ++ data).length =
      5 + data.length := by
    simp
    omega
  unfold file_data_frame
  rw [← this, List.take_left]

/-! ## C3: FILE_DATA acceptance -/

/-- C3, amended. For every active session and every frame
`[0x81, 0x91, hi, lo, len, data, c]` of length `6 + len` with `q = 256 * hi + lo ≥ 1`,
`(q - 1) * 256 + len ≤ 10240` and `c` the sum of the preceding bytes modulo 256,
`handle_file_data` sends exactly ACK, stores `data[i]` at buffer index
`(q - 1) * 256 + i` for every `i < len`, leaves every other buffer byte, the
filename, `file_size`, `total_packets` and `transfer_active` unchanged, and sets
`received_packets` to its old value plus one modulo 65536: plus one whenever the
old value is below 65535. -/
theorem file_data_accepts (f : file_transfer_t) (hi lo : Nat) (data : List Nat)
    (hact : f.transfer_active = true) (hbuf : f.file_data.length = 10240)
    (hhi : hi < 256) (hlo : lo < 256) (hdl : data.length < 256)
    (hq : 1 ≤ 256 * hi + lo) (hfit : (256 * hi + lo - 1) * 256 + data.length ≤ 10240) :
    ∃ g, handle_file_data f
        (file_data_frame hi lo data (checksum ([0x81, 0x91, hi, lo, data.length] ++ data)))
        (6 + data.length) = some (g, ACK) ∧
      (∀ i, i < data.length → g.file_data[(256 * hi + lo - 1) * 256 + i]? = data[i]?) ∧
      (∀ j, ¬ ((256 * hi + lo - 1) * 256 ≤ j ∧ j < (256 * hi + lo - 1) * 256 + data.length) →
        g.file_data[j]? = f.file_data[j]?) ∧
      g.file_data.length = 10240 ∧
      g.received_packets = (f.received_packets + 1) % 65536 ∧
      (f.received_packets < 65535 → g.received_packets = f.received_packets + 1) ∧
      g.filename = f.filename ∧ g.file_size = f.file_size ∧
      g.total_packets = f.total_packets ∧ g.transfer_active = true := by
  have hbe : be16 hi lo = 256 * hi + lo := by
    rw [be16_eq hi lo hhi hlo]
    omega
  have hchk : ¬ ((data_offset (be16 hi lo) + data.length) % 2 ^ 32 > MAX_FILE_SIZE) := by
    rw [bounds_check_iff _ _ (be16_lt hi lo) hdl, hbe]
    exact ⟨hq, hfit⟩
  obtain ⟨buf, hl, ⟨_, hoff, _⟩, _, hget, heq⟩ := handle_file_data_write f
    (file_data_frame hi lo data (checksum ([0x81, 0x91, hi, lo, data.length] ++ data)))
    (6 + data.length) hi lo data.length _ hact hbuf (by simp [file_data_frame])
    (by simp [file_data_frame]) (by simp [file_data_frame]) hdl (by omega)
    (file_data_frame_crc_byte hi lo data _) hchk
  rw [file_data_frame_take] at heq
  have hck : checksum ([0x81, 0x91, hi, lo, data.length] ++ data) =
      ([UART_HEADER, CMD_FILE_DATA, hi, lo, data.length] ++ data).sum % 256 := rfl
  rw [if_pos hck] at heq
  rw [hoff, hbe] at hget
  refine ⟨_, heq, ?_, ?_, hl, rfl, ?_, rfl, rfl, rfl, hact⟩
  · intro i hi'
    show buf[(256 * hi + lo - 1) * 256 + i]? = data[i]?
    have hin : (256 * hi + lo - 1) * 256 ≤ (256 * hi + lo - 1) * 256 + i ∧
        (256 * hi + lo - 1) * 256 + i < (256 * hi + lo - 1) * 256 + data.length := by omega
    rw [hget, if_pos hin, Nat.add_sub_cancel_left, file_data_frame_payload hi lo data _ i hi']
  · intro j hj
    show buf[j]? = f.file_data[j]?
    rw [hget, if_neg hj]
  · intro hlt
    show (f.received_packets + 1) % 2 ^ 16 = f.received_packets + 1
    omega

/-- C3 at Scenario 2: sequence number 1 with ten payload bytes after Scenario 1
is acknowledged, the counter becomes 1 and the bytes land at offset 0. -/
theorem file_data_accepts_witness :
    ∃ g, handle_file_data session_started
        (file_data_frame 0 1 ten_bytes (checksum ([0x81, 0x91, 0, 1, 10] ++ ten_bytes))) 16 =
          some (g, ACK) ∧
      g.received_packets = 1 ∧ (∀ i, i < 10 → g.file_data[i]? = ten_bytes[i]?) := by
  obtain ⟨g, h1, h2, _, _, h3, _⟩ := file_data_accepts session_started 0 1 ten_bytes rfl
    (List.length_replicate _ _) (by decide) (by decide) (by decide) (by decide) (by decide)
  refine ⟨g, h1, h3, ?_⟩
  intro i hi
  have := h2 i hi
  have e : (256 * 0 + 1 - 1) * 256 + i = i := by omega
  rw [e] at this
  exact this

/-- C3 as stated fails when `received_packets` is 65535: the frame is
acknowledged and the `uint16_t` counter wraps to 0 instead of increasing. -/
theorem file_data_counter_wraps :
    ∃ g, session_counter_max.transfer_active = true ∧
      session_counter_max.received_packets = 65535 ∧
      handle_file_data session_counter_max
        (file_data_frame 0 1 ten_bytes (checksum ([0x81, 0x91, 0, 1, 10] ++ ten_bytes))) 16 =
          some (g, ACK) ∧
      g.received_packets = 0 ∧ g.received_packets ≠ session_counter_max.received_packets + 1 := by
  have hchk : ¬ ((data_offset (be16 0 1) + 10) % 2 ^ 32 > MAX_FILE_SIZE) := by decide
  obtain ⟨buf, _, _, _, _, heq⟩ := handle_file_data_write session_counter_max
    (file_data_frame 0 1 ten_bytes (checksum ([0x81, 0x91, 0, 1, 10] ++ ten_bytes)))
    16 0 1 10 _ rfl (List.length_replicate _ _) rfl rfl rfl
    (by decide) (by decide) (file_data_frame_crc_byte 0 1 ten_bytes _) hchk
  rw [if_pos (by decide)] at heq
  refine ⟨_, rfl, rfl, heq, rfl, ?_⟩
  show (65535 + 1) % 2 ^ 16 ≠ 65535 + 1
  decide

/-! ## C6: every write of `handle_file_data` stays inside the buffer -/

/-- C6. For every session (with its 10240-byte buffer) and every packet of
bytes passed with a length it really has, `handle_file_data` returns without
leaving an array, and either it answers NACK with the session untouched, or the
copy it made went to `[offset, offset + data_len)` with
`offset = (sequence_number - 1) * 256` (the 32-bit value) and
`offset + data_len ≤ 10240`, every changed buffer index lying in that range.
A sequence number 0, and every sequence number above 40 with at least one data
byte, is answered with NACK and nothing is written. -/
theorem file_data_writes_in_bounds (f : file_transfer_t) (packet : List Nat) (length : Nat)
    (hbuf : f.file_data.length = 10240) (hbytes : IsBytes packet)
    (hlen : length ≤ packet.length) :
    ∃ g ev, handle_file_data f packet length = some (g, ev) ∧
      ((g = f ∧ ev = NACK) ∨
        ∃ hi lo dl, packet[2]? = some hi ∧ packet[3]? = some lo ∧ packet[4]? = some dl ∧
          data_offset (be16 hi lo) + dl ≤ 10240 ∧
          memcpy f.file_data (data_offset (be16 hi lo)) packet 5 dl = some g.file_data ∧
          g.file_data.length = 10240 ∧
          ∀ i, g.file_data[i]? ≠ f.file_data[i]? →
            data_offset (be16 hi lo) ≤ i ∧ i < data_offset (be16 hi lo) + dl ∧ i < 10240) ∧
      (∀ hi lo, packet[2]? = some hi → packet[3]? = some lo → be16 hi lo = 0 →
        g = f ∧ ev = NACK) ∧
      (∀ hi lo dl, packet[2]? = some hi → packet[3]? = some lo → packet[4]? = some dl →
        40 < be16 hi lo → 1 ≤ dl → g = f ∧ ev = NACK) := by
  obtain ⟨g, ev, hres, hcase⟩ := handle_file_data_total f packet length hbuf hbytes hlen
  refine ⟨g, ev, hres, ?_, ?_, ?_⟩
  · rcases hcase with h | ⟨hi, lo, dl, h2, h3, h4, _, _, hin, hm, hl⟩
    · exact Or.inl h
    · refine Or.inr ⟨hi, lo, dl, h2, h3, h4, hin, hm, hl, ?_⟩
      have hsrc : 5 + dl ≤ packet.length := by
        by_contra hcon
        have hdl : 0 < dl := by
          rcases List.getElem?_eq_some.mp h4 with ⟨h, _⟩
          omega
        obtain ⟨k, rfl⟩ : ∃ k, dl = k + 1 := ⟨dl - 1, by omega⟩
        have hnone : packet[5 + k]? = none := List.getElem?_eq_none (by omega)
        cases hk : memcpy f.file_data (data_offset (be16 hi lo)) packet 5 k with
        | none => simp [memcpy, hk] at hm
        | some d => simp [memcpy, hk, hnone] at hm
      obtain ⟨d, hd, _, hget⟩ := memcpy_spec f.file_data (data_offset (be16 hi lo)) packet 5 dl
        (by omega) hsrc
      rw [hm] at hd
      cases hd
      intro i hne
      by_cases hr : data_offset (be16 hi lo) ≤ i ∧ i < data_offset (be16 hi lo) + dl
      · exact ⟨hr.1, hr.2, by omega⟩
      · exact absurd (by rw [hget i, if_neg hr]) hne
  · intro hi lo h2 h3 hz
    rcases hcase with h | ⟨hi', lo', dl, h2', h3', _, hq, _⟩
    · exact h
    · rw [h2] at h2'
      rw [h3] at h3'
      cases h2'
      cases h3'
      omega
  · intro hi lo dl h2 h3 h4 hq hdl
    rcases hcase with h | ⟨hi', lo', dl', h2', h3', h4', _, hoff, hin, _⟩
    · exact h
    · rw [h2] at h2'
      rw [h3] at h3'
      rw [h4] at h4'
      cases h2'
      cases h3'
      cases h4'
      rw [hoff] at hin
      omega

/-- C6 on the session of Scenario 1: sequence number 0 and sequence number 41
with one data byte are both refused with NACK, the session untouched. -/
theorem file_data_writes_in_bounds_witness :
    handle_file_data session_started [0x81, 0x91, 0, 0, 1, 7, 0x1A] 7 =
      some (session_started, NACK) ∧
    handle_file_data session_started [0x81, 0x91, 0, 41, 1, 7, 0x43] 7 =
      some (session_started, NACK) := by
  constructor
  · obtain ⟨g, ev, h, _, h0, _⟩ := file_data_writes_in_bounds session_started
      [0x81, 0x91, 0, 0, 1, 7, 0x1A] 7 (List.length_replicate _ _) (by decide) (by decide)
    obtain ⟨rfl, rfl⟩ := h0 0 0 rfl rfl (by decide)
    exact h
  · obtain ⟨g, ev, h, _, _, h41⟩ := file_data_writes_in_bounds session_started
      [0x81, 0x91, 0, 41, 1, 7, 0x43] 7 (List.length_replicate _ _) (by decide) (by decide)
    obtain ⟨rfl, rfl⟩ := h41 0 41 1 rfl rfl rfl (by decide) (by decide)
    exact h

/-! ## C7: FILE_DATA with a wrong checksum byte -/

/-- C7. For every active session and every FILE_DATA packet that passes the
length checks (`length ≥ 6 + data_len`) and the bounds check of the code, so
that `q ≥ 1` and `(q - 1) * 256 + data_len ≤ 10240`, but whose byte at index
`5 + data_len` differs from the sum of the preceding bytes modulo 256,
`handle_file_data` sends exactly NACK, leaves `received_packets`, the filename,
`file_size` and `total_packets` unchanged and `transfer_active` true, and the
buffer is the old one with the payload written at offset `(q - 1) * 256`. -/
theorem file_data_bad_checksum (f : file_transfer_t) (packet : List Nat)
    (length hi lo dl c : Nat) (hact : f.transfer_active = true)
    (hbuf : f.file_data.length = 10240) (h2 : packet[2]? = some hi)
    (h3 : packet[3]? = some lo) (h4 : packet[4]? = some dl)
    (hhi : hi < 256) (hlo : lo < 256) (hdl : dl < 256)
    (hlen : 6 + dl ≤ length) (hc : packet[5 + dl]? = some c)
    (hfit : ¬ ((data_offset (be16 hi lo) + dl) % 2 ^ 32 > MAX_FILE_SIZE))
    (hbad : c ≠ (packet.take (5 + dl)).sum % 256) :
    ∃ g, handle_file_data f packet length = some (g, NACK) ∧
      g.received_packets = f.received_packets ∧ g.filename = f.filename ∧
      g.file_size = f.file_size ∧ g.total_packets = f.total_packets ∧
      g.transfer_active = true ∧
      1 ≤ 256 * hi + lo ∧ (256 * hi + lo - 1) * 256 + dl ≤ 10240 ∧
      g.file_data.length = 10240 ∧
      ∀ i, g.file_data[i]? =
        if (256 * hi + lo - 1) * 256 ≤ i ∧ i < (256 * hi + lo - 1) * 256 + dl then
          packet[5 + (i - (256 * hi + lo - 1) * 256)]?
        else f.file_data[i]? := by
  have hbe : be16 hi lo = 256 * hi + lo := by
    rw [be16_eq hi lo hhi hlo]
    omega
  obtain ⟨buf, hl, ⟨hq, hoff, hin⟩, _, hget, heq⟩ := handle_file_data_write f packet length
    hi lo dl c hact hbuf h2 h3 h4 hdl hlen hc hfit
  rw [if_neg hbad] at heq
  rw [hoff, hbe] at hget hin
  rw [hbe] at hq
  exact ⟨_, heq, rfl, rfl, rfl, rfl, hact, hq, hin, hl, hget⟩

/-- C7 at Scenario 6: after Scenario 1, the frame of Scenario 2 with its
checksum byte replaced by `0xFF` is answered with NACK, the counter stays 0 and
the ten bytes are in the buffer at offset 0. -/
theorem file_data_bad_checksum_witness :
    ∃ g, handle_file_data session_started (file_data_frame 0 1 ten_bytes 0xFF) 16 =
        some (g, NACK) ∧
      g.received_packets = 0 ∧ g.transfer_active = true ∧ g.file_data[0]? = some 1 ∧
      g.file_data[9]? = some 10 ∧ g.file_data[10]? = some 0 := by
  obtain ⟨g, h, h1, _, _, _, h5, _, _, _, hget⟩ := file_data_bad_checksum session_started
    (file_data_frame 0 1 ten_bytes 0xFF) 16 0 1 10 0xFF rfl (List.length_replicate _ _)
    rfl rfl rfl (by decide) (by decide) (by decide) (by decide) rfl (by decide) (by decide)
  refine ⟨g, h, h1, h5, ?_, ?_, ?_⟩
  · rw [hget 0]
    rfl
  · rw [hget 9]
    rfl
  · rw [hget 10, if_neg (by decide)]
    exact List.getElem?_replicate_of_lt (by decide)

/-! ## C8: a wrong checksum byte on FILE_START / FILE_END -/

theorem NACK_ne_READY : NACK ≠ READY := by decide

theorem NACK_ne_ACK : NACK ≠ ACK := by decide

/-- What a READY answer of `handle_file_start` tells about the packet. -/
theorem handle_file_start_ready_inv (f g : file_transfer_t) (packet : List Nat) (length : Nat)
    (h : handle_file_start f packet length = some (g, READY)) :
    ∃ n b3 b2 b1 b0, 8 ≤ length ∧ packet[2]? = some n ∧ n ≤ 63 ∧ 7 + n ≤ length ∧
      packet[3 + n]? = some b3 ∧ packet[4 + n]? = some b2 ∧ packet[5 + n]? = some b1 ∧
      packet[6 + n]? = some b0 ∧ ¬ (be32 b3 b2 b1 b0 > 10240) ∧
      packet[7 + n]? = some ((packet.take (7 + n)).sum % 256) := by
  unfold handle_file_start at h
  by_cases hA : length < 8
  · simp [hA, send_nack_eq, NACK_ne_READY] at h
  · simp only [hA, if_false, Option.bind_eq_bind] at h
    cases h2 : packet[2]? with
    | none => simp only [h2, Option.none_bind, Option.some_bind, reduceCtorEq] at h
    | some n =>
      simp only [h2, Option.some_bind] at h
      by_cases hB : n > MAX_FILENAME_LEN - 1 ∨ length < 7 + n
      · simp [hB, send_nack_eq, NACK_ne_READY] at h
      · simp only [hB, if_false] at h
        cases hm : (memcpy f.filename 0 packet 3 n) with
        | none => simp only [hm, Option.none_bind, Option.some_bind, reduceCtorEq] at h
        | some d =>
          simp only [hm, Option.some_bind] at h
          cases hs : store d n 0 with
          | none => simp only [hs, Option.none_bind, Option.some_bind, reduceCtorEq] at h
          | some name =>
            simp only [hs, Option.some_bind] at h
            cases h3 : packet[3 + n]? with
            | none => simp only [h3, Option.none_bind, Option.some_bind, reduceCtorEq] at h
            | some b3 =>
              cases h4 : packet[4 + n]? with
              | none => simp only [h3, h4, Option.none_bind, Option.some_bind, reduceCtorEq] at h
              | some b2 =>
                cases h5 : packet[5 + n]? with
                | none => simp only [h3, h4, h5, Option.none_bind, Option.some_bind, reduceCtorEq] at h
                | some b1 =>
                  cases h6 : packet[6 + n]? with
                  | none => simp only [h3, h4, h5, h6, Option.none_bind, Option.some_bind, reduceCtorEq] at h
                  | some b0 =>
                    simp only [h3, h4, h5, h6, Option.some_bind] at h
                    by_cases hbig : be32 b3 b2 b1 b0 > MAX_FILE_SIZE
                    · simp [hbig, send_nack_eq, NACK_ne_READY] at h
                    · simp only [hbig, if_false] at h
                      have hplen : 6 + n < packet.length := by
                        rcases List.getElem?_eq_some.mp h6 with ⟨h', _⟩
                        exact h'
                      rw [calculate_crc_eq packet (7 + n) (by omega)] at h
                      cases h7 : packet[7 + n]? with
                      | none => simp only [h7, Option.none_bind, Option.some_bind, reduceCtorEq] at h
                      | some c =>
                        simp only [h7, Option.some_bind] at h
                        by_cases hc : c = (packet.take (7 + n)).sum % 256
                        · simp only [MAX_FILENAME_LEN] at hB
                          exact ⟨n, b3, b2, b1, b0, by omega, rfl, by omega, by omega, h3, h4,
                            h5, h6, hbig, by rw [h7, hc]⟩
                        · simp only [hc, if_false, send_nack_eq, Option.some_bind,
                            Option.some.injEq, Prod.mk.injEq, NACK_ne_READY, and_false] at h

theorem take_set_at (l : List Nat) (n a : Nat) : (l.set n a).take n = l.take n := by
  apply List.ext_getElem?
  intro i
  rw [List.getElem?_take, List.getElem?_take]
  split
  · rw [List.getElem?_set_ne (by omega)]
  · rfl

/-- Unfolding of `handle_file_end` on an active session once the packet holds
its five bytes. -/
theorem handle_file_end_eq (f : file_transfer_t) (packet : List Nat) (length hi lo c : Nat)
    (hact : f.transfer_active = true) (h5 : 5 ≤ length) (h2 : packet[2]? = some hi)
    (h3 : packet[3]? = some lo) (h4 : packet[4]? = some c) :
    handle_file_end f packet length =
      if c ≠ (packet.take 4).sum % 256 then some ({ f with transfer_active := false }, NACK)
      else some (zero_file_info, Event.save f.filename f.file_data f.file_size :: ACK) := by
  have hA : ¬ length < 5 := by omega
  have hplen : 4 < packet.length := by
    rcases List.getElem?_eq_some.mp h4 with ⟨h, _⟩
    exact h
  unfold handle_file_end
  simp only [hact, hA, if_false, h2, h3, h4, Option.bind_eq_bind, Option.some_bind,
    send_nack_eq, send_ack_eq, Bool.true_eq_false, calculate_crc_eq packet 4 (by omega),
    save_file, ACK, List.cons_append, List.nil_append]

/-- What an accepting answer of `handle_file_end` on an active session tells
about the packet. -/
theorem handle_file_end_accept_inv (f g : file_transfer_t) (packet : List Nat) (length : Nat)
    (hact : f.transfer_active = true)
    (h : handle_file_end f packet length =
      some (g, Event.save f.filename f.file_data f.file_size :: ACK)) :
    ∃ hi lo, 5 ≤ length ∧ packet[2]? = some hi ∧ packet[3]? = some lo ∧
      packet[4]? = some ((packet.take 4).sum % 256) := by
  by_cases hA : length < 5
  · simp [handle_file_end, hact, hA, send_nack_eq, NACK] at h
  · cases h2 : packet[2]? with
    | none => simp [handle_file_end, hact, hA, h2] at h
    | some hi =>
      cases h3 : packet[3]? with
      | none => simp [handle_file_end, hact, hA, h2, h3] at h
      | some lo =>
        cases h4 : packet[4]? with
        | none => simp [handle_file_end, hact, hA, h2, h3, h4] at h
        | some c =>
          rw [handle_file_end_eq f packet length hi lo c hact (by omega) h2 h3 h4] at h
          by_cases hc : c ≠ (packet.take 4).sum % 256
          · simp [hc, NACK] at h
          · have hc' : c = (packet.take 4).sum % 256 := by
              by_contra hne
              exact hc hne
            exact ⟨hi, lo, by omega, rfl, rfl, by rw [hc']⟩

/-- C8. Take a packet that `handle_file_start` accepts with READY (resp. that
`handle_file_end` accepts on an active session, saving the file and sending
ACK) and replace its checksum byte, the byte at index `7 + filename_len` (resp.
index 4), which is the trailing byte of a frame of the wire length, by any other
value `c'`. Then, from every session `f'`, active or not, the same handler
sends exactly NACK and leaves `transfer_active = false`. -/
theorem checksum_mismatch_forces_inactive (f f' g : file_transfer_t) (packet : List Nat)
    (length n c c' : Nat) (hname : f'.filename.length = 64) (hne : c' ≠ c) :
    (handle_file_start f packet length = some (g, READY) → packet[2]? = some n →
      packet[7 + n]? = some c →
      ∃ g', handle_file_start f' (packet.set (7 + n) c') length = some (g', NACK) ∧
        g'.transfer_active = false) ∧
    (f.transfer_active = true →
      handle_file_end f packet length =
        some (g, Event.save f.filename f.file_data f.file_size :: ACK) →
      packet[4]? = some c →
      ∃ g', handle_file_end f' (packet.set 4 c') length = some (g', NACK) ∧
        g'.transfer_active = false) := by
  constructor
  · intro hacc h2 hc
    obtain ⟨n', b3, b2, b1, b0, hlen, h2', hn, hl, h3, h4, h5, h6, hbig, h7⟩ :=
      handle_file_start_ready_inv f g packet length hacc
    rw [h2] at h2'
    cases h2'
    rw [hc] at h7
    have hplen : 7 + n < packet.length := by
      rcases List.getElem?_eq_some.mp hc with ⟨h, _⟩
      exact h
    obtain ⟨name, _, _, heq⟩ := handle_file_start_eq f' (packet.set (7 + n) c') length n
      b3 b2 b1 b0 hlen (by rw [List.getElem?_set_ne (by omega)]; exact h2) hn hl hname
      (by rw [List.getElem?_set_ne (by omega)]; exact h3)
      (by rw [List.getElem?_set_ne (by omega)]; exact h4)
      (by rw [List.getElem?_set_ne (by omega)]; exact h5)
      (by rw [List.getElem?_set_ne (by omega)]; exact h6)
    rw [if_neg hbig, List.getElem?_set_self hplen, Option.some_bind, take_set_at] at heq
    have hcc : ¬ c' = (packet.take (7 + n)).sum % 256 := by
      intro h
      apply hne
      rw [h]
      exact (Option.some.inj h7).symm
    rw [if_neg hcc] at heq
    exact ⟨_, heq, rfl⟩
  · intro hact hacc hc
    obtain ⟨hi, lo, hlen, h2, h3, h4⟩ := handle_file_end_accept_inv f g packet length hact hacc
    rw [hc] at h4
    have hplen : 4 < packet.length := by
      rcases List.getElem?_eq_some.mp hc with ⟨h, _⟩
      exact h
    by_cases hact' : f'.transfer_active = false
    · exact ⟨f', by simp [handle_file_end, hact', send_nack_eq], hact'⟩
    · have hact1 : f'.transfer_active = true := by simpa using hact'
      have heq := handle_file_end_eq f' (packet.set 4 c') length hi lo c' hact1 hlen
        (by rw [List.getElem?_set_ne (by omega)]; exact h2)
        (by rw [List.getElem?_set_ne (by omega)]; exact h3)
        (List.getElem?_set_self hplen)
      rw [take_set_at] at heq
      have hcc : c' ≠ (packet.take 4).sum % 256 := by
        intro h
        apply hne
        rw [h]
        exact (Option.some.inj h4).symm
      rw [if_pos hcc] at heq
      exact ⟨_, heq, rfl⟩

/-! ## C10: FILE_DATA / FILE_END without an active session -/

/-- C10. For every packet and length, when `transfer_active` is false both
`handle_file_data` and `handle_file_end` return, send exactly NACK, make no
call of `save_file`, and leave every field of the session (the buffer
included) as it was. -/
theorem inactive_session_rejects (f : file_transfer_t) (packet : List Nat) (length : Nat)
    (h : f.transfer_active = false) :
    handle_file_data f packet length = some (f, NACK) ∧
    handle_file_end f packet length = some (f, NACK) ∧
    save_calls NACK = [] ∧ sent_bytes NACK = [0x81, 0x94, 0x15] := by
  refine ⟨?_, ?_, rfl, rfl⟩
  · simp [handle_file_data, h, send_nack_eq]
  · simp [handle_file_end, h, send_nack_eq]

/-- C10 on the zeroed session with a well-formed FILE_DATA frame (Scenario 5). -/
theorem inactive_session_rejects_witness :
    handle_file_data zero_file_info [0x81, 0x91, 0, 1, 1, 7, 0x1B] 7 = some (zero_file_info, NACK) ∧
    handle_file_end zero_file_info [0x81, 0x91, 0, 1, 1, 7, 0x1B] 7 = some (zero_file_info, NACK) :=
  ⟨(inactive_session_rejects zero_file_info _ 7 rfl).1,
   (inactive_session_rejects zero_file_info _ 7 rfl).2.1⟩

/-! ## C4: FILE_END completion -/

/-- C4. For every active session and every 5-byte frame `[0x81, 0x92, hi, lo, c]`
whose `c` is the sum of the first four bytes modulo 256, whatever count
`256 * hi + lo` it declares, `handle_file_end` first calls `save_file` with the
filename, buffer and `file_size` the session had before the call, then sends
exactly ACK, and leaves the all-zero session. -/
theorem file_end_completes (f : file_transfer_t) (hi lo : Nat)
    (hact : f.transfer_active = true) :
    ∃ g, handle_file_end f (file_end_frame hi lo (checksum [0x81, 0x92, hi, lo])) 5 =
        some (g, Event.save f.filename f.file_data f.file_size :: ACK) ∧
      g.transfer_active = false ∧ g.filename = List.replicate 64 0 ∧ g.file_size = 0 ∧
      g.total_packets = 0 ∧ g.received_packets = 0 ∧ g.file_data = List.replicate 10240 0 := by
  refine ⟨zero_file_info, ?_, rfl, rfl, rfl, rfl, rfl, rfl⟩
  have hcrc : calculate_crc [UART_HEADER, CMD_FILE_END, hi, lo, checksum [0x81, 0x92, hi, lo]] 4 =
      some (checksum [0x81, 0x92, hi, lo]) :=
    calculate_crc_append [0x81, 0x92, hi, lo] [checksum [0x81, 0x92, hi, lo]]
  simp [handle_file_end, hact, hcrc, send_ack_eq, save_file, file_end_frame]

/-- C4 at Scenario 3: FILE_END after Scenarios 1 and 2 hands `"a.txt"`, the
buffer and size 10 to `save_file`, sends ACK and zeroes the session. -/
theorem file_end_completes_witness :
    ∃ g, handle_file_end { session_started with received_packets := 1 } scenario3_frame 5 =
        some (g, Event.save (a_txt ++ List.replicate 59 0) (List.replicate MAX_FILE_SIZE 0) 10
          :: ACK) ∧
      g.transfer_active = false ∧ g.file_size = 0 := by
  obtain ⟨g, h, h1, _, h2, _⟩ :=
    file_end_completes { session_started with received_packets := 1 } 0 1 rfl
  exact ⟨g, h, h1, h2⟩

/-- C2 at Scenario 1: `"a.txt"` with declared size 10 is answered with READY and
opens a session expecting one packet. -/
theorem file_start_accepts_witness :
    ∃ g, handle_file_start zero_file_info scenario1_frame 13 = some (g, READY) ∧
      g.transfer_active = true ∧ g.total_packets = 1 ∧ g.file_size = 10 := by
  obtain ⟨g, h, h1, _, _, h2, h3, _⟩ :=
    file_start_accepts zero_file_info a_txt 10 (List.length_replicate _ _) (by decide)
      (by decide)
  exact ⟨g, h, h1, h3, h2⟩

/-! ## Concrete runs of the scenarios -/

theorem scenario1_run :
    handle_file_start zero_file_info scenario1_frame 13 = some (session_started, READY) := by
  rfl

theorem scenario3_run :
    handle_file_end session_started scenario3_frame 5 =
      some (zero_file_info,
        Event.save session_started.filename session_started.file_data
          session_started.file_size :: ACK) := by
  rfl

/-- C8 at the frames of Scenarios 1 and 3 with the checksum byte replaced by
`0xFF`: both handlers answer NACK and leave the session inactive. -/
theorem checksum_mismatch_forces_inactive_witness :
    (∃ g, handle_file_start session_started (scenario1_frame.set 12 0xFF) 13 = some (g, NACK) ∧
      g.transfer_active = false) ∧
    (∃ g, handle_file_end session_started (scenario3_frame.set 4 0xFF) 5 = some (g, NACK) ∧
      g.transfer_active = false) :=
  ⟨(checksum_mismatch_forces_inactive zero_file_info session_started session_started
      scenario1_frame 13 5 15 0xFF rfl (by decide)).1 scenario1_run rfl rfl,
   (checksum_mismatch_forces_inactive session_started session_started zero_file_info
      scenario3_frame 5 0 20 0xFF rfl (by decide)).2 rfl scenario3_run rfl⟩

/-! ## C9: FILE_START declaring more than 10240 bytes -/

/-- C9 as stated fails: on the zeroed, inactive session the FILE_START of
Scenario 4 (`"a.txt"`, declared size 20000) is answered with NACK, but the
filename array then holds `"a.txt"`: the session state is not what it was. -/
theorem oversize_file_start_overwrites_filename :
    ∃ g, handle_file_start zero_file_info scenario4_frame 13 = some (g, NACK) ∧
      zero_file_info.filename[0]? = some 0 ∧ g.filename[0]? = some 97 ∧
      g.filename ≠ zero_file_info.filename := by
  refine ⟨{ zero_file_info with filename := a_txt ++ List.replicate 59 0 }, rfl, rfl, rfl, ?_⟩
  intro h
  have h0 := congrArg (fun l => l[0]?) h
  exact absurd h0 (by decide)

/-- C9, amended. For every session and every FILE_START packet that passes
the length checks and whose big-endian declared size exceeds 10240,
`handle_file_start` sends exactly NACK and leaves `file_size`, `total_packets`,
`received_packets`, the buffer and `transfer_active` as they were, so an
inactive session remains inactive; of the filename array, bytes `0 .. n - 1` now
hold the filename bytes of the packet, byte `n` is 0 and the bytes after it are
unchanged. -/
theorem oversize_file_start_rejected (f : file_transfer_t) (packet : List Nat)
    (length n b3 b2 b1 b0 : Nat) (hname : f.filename.length = 64) (hlen : 8 ≤ length)
    (hn : packet[2]? = some n) (hn63 : n ≤ 63) (hl : 7 + n ≤ length)
    (h3 : packet[3 + n]? = some b3) (h2 : packet[4 + n]? = some b2)
    (h1 : packet[5 + n]? = some b1) (h0 : packet[6 + n]? = some b0)
    (hb3 : b3 < 256) (hb2 : b2 < 256) (hb1 : b1 < 256) (hb0 : b0 < 256)
    (hbig : 10240 < b3 * 2 ^ 24 + b2 * 2 ^ 16 + b1 * 2 ^ 8 + b0) :
    ∃ g, handle_file_start f packet length = some (g, NACK) ∧
      g.file_size = f.file_size ∧ g.total_packets = f.total_packets ∧
      g.received_packets = f.received_packets ∧ g.file_data = f.file_data ∧
      g.transfer_active = f.transfer_active ∧ g.filename.length = 64 ∧
      ∀ i, g.filename[i]? =
        if i < n then packet[3 + i]? else if i = n then some 0 else f.filename[i]? := by
  obtain ⟨name, hl64, hget, heq⟩ := handle_file_start_eq f packet length n b3 b2 b1 b0 hlen hn
    hn63 hl hname h3 h2 h1 h0
  have hsize : be32 b3 b2 b1 b0 > 10240 := by
    rw [be32_eq b3 b2 b1 b0 hb3 hb2 hb1 hb0]
    exact hbig
  rw [if_pos hsize] at heq
  exact ⟨_, heq, rfl, rfl, rfl, rfl, rfl, hl64, hget⟩

/-- C9 amended, at Scenario 4: declared size 20000 is refused with NACK, the
inactive zeroed session stays inactive with its buffer, and its filename array
starts with `"a.txt"`. -/
theorem oversize_file_start_rejected_witness :
    ∃ g, handle_file_start zero_file_info scenario4_frame 13 = some (g, NACK) ∧
      g.transfer_active = false ∧ g.file_data = zero_file_info.file_data ∧
      g.filename[0]? = some 97 := by
  obtain ⟨g, h, _, _, _, h4, h5, _, hget⟩ := oversize_file_start_rejected zero_file_info
    scenario4_frame 13 5 0 0 78 32 (List.length_replicate _ _) (by decide) rfl (by decide)
    (by decide) rfl rfl rfl rfl (by decide) (by decide) (by decide) (by decide) (by decide)
  refine ⟨g, h, h5, h4, ?_⟩
  rw [hget 0]
  rfl

/-! ## C1: the frame assembler on complete frames -/

set_option maxRecDepth 10000 in
/-- C1, evaluated. Fed byte by byte from the initialised receiver, the
well-formed frames of Scenario 1 (FILE_START, 13 bytes), Scenario 2 (FILE_DATA,
16 bytes) and Scenario 3 (FILE_END, 5 bytes), none of which holds `0x81` after
its first byte, invoke no handler and send nothing, and the assembler is left
accumulating with `buffer_index` equal to the frame length instead of back in
SEEKING_HEADER with `buffer_index = 0`. -/
theorem complete_frames_not_dispatched :
    (feed initial scenario1_frame).map
        (fun r => (r.1.buffer_index, r.1.header_found, handler_calls r.2, r.2)) =
      some (13, true, [], []) ∧
    (feed initial scenario2_frame).map
        (fun r => (r.1.buffer_index, r.1.header_found, handler_calls r.2, r.2)) =
      some (16, true, [], []) ∧
    (feed initial scenario3_frame).map
        (fun r => (r.1.buffer_index, r.1.header_found, handler_calls r.2, r.2)) =
      some (5, true, [], []) ∧
    scenario1_frame.length = 13 ∧ scenario2_frame.length = 16 ∧ scenario3_frame.length = 5 ∧
    0x81 ∉ scenario1_frame.tail ∧ 0x81 ∉ scenario2_frame.tail ∧ 0x81 ∉ scenario3_frame.tail := by
  refine ⟨by rfl, by rfl, by rfl, by rfl, by rfl, by rfl, by decide, by decide, by decide⟩

/-! ## C14: the three response frames -/

/-- C14. The responders `send_ack`, `send_nack` and `send_ready` transmit exactly
the bytes `0x81 0x93 0x14`, `0x81 0x94 0x15` and `0x81 0x95 0x16` in that order:
header, command, and a third byte equal to the sum of the first two modulo 256,
which is what `calculate_crc` over the first two bytes of the frame returns. -/
theorem responder_wire_format :
    send_ack.map sent_bytes = some [0x81, 0x93, 0x14] ∧
    send_nack.map sent_bytes = some [0x81, 0x94, 0x15] ∧
    send_ready.map sent_bytes = some [0x81, 0x95, 0x16] ∧
    send_ack = some [Event.tx UART_HEADER, Event.tx CMD_ACK, Event.tx ((0x81 + 0x93) % 256)] ∧
    send_nack = some [Event.tx UART_HEADER, Event.tx CMD_NACK, Event.tx ((0x81 + 0x94) % 256)] ∧
    send_ready = some [Event.tx UART_HEADER, Event.tx CMD_READY, Event.tx ((0x81 + 0x95) % 256)] ∧
    calculate_crc [0x81, 0x93, 0x14] 2 = some 0x14 ∧
    calculate_crc [0x81, 0x94, 0x15] 2 = some 0x15 ∧
    calculate_crc [0x81, 0x95, 0x16] 2 = some 0x16 := by
  refine ⟨by rfl, by rfl, by rfl, by rfl, by rfl, by rfl, by rfl, by rfl, by rfl⟩

/-! ## C16: `init_uart_receiver` is idempotent -/

/-- C16. From every receiver state, running `init_uart_receiver` twice gives the
state that running it once gives, and that state is the inactive all-zero
session (zero filename, `file_size`, `total_packets`, `received_packets`, buffer,
`transfer_active = false`) with a zeroed scratch buffer, `buffer_index = 0` and
`header_found = false`. -/
theorem init_uart_receiver_idempotent (r : Receiver) :
    init_uart_receiver (init_uart_receiver r) = init_uart_receiver r ∧
    (init_uart_receiver r).file_info.filename = List.replicate 64 0 ∧
    (init_uart_receiver r).file_info.file_size = 0 ∧
    (init_uart_receiver r).file_info.total_packets = 0 ∧
    (init_uart_receiver r).file_info.received_packets = 0 ∧
    (init_uart_receiver r).file_info.file_data = List.replicate 10240 0 ∧
    (init_uart_receiver r).file_info.transfer_active = false ∧
    (init_uart_receiver r).uart_buffer = List.replicate 256 0 ∧
    (init_uart_receiver r).buffer_index = 0 ∧
    (init_uart_receiver r).header_found = false :=
  ⟨rfl, rfl, rfl, rfl, rfl, rfl, rfl, rfl, rfl, rfl⟩

/-! ## The per-byte step, case by case -/

/-- A header byte restarts the frame whatever the state. -/
theorem receive_step_header (r : Receiver) (hbuf : r.uart_buffer.length = 256) :
    receive_step r UART_HEADER =
      some ({ r with uart_buffer := r.uart_buffer.set 0 UART_HEADER,
                     buffer_index := 1, header_found := true }, []) := by
  have h0 : 0 < r.uart_buffer.length := by omega
  simp [receive_step, store, h0]

/-- While accumulating below 256 bytes, a byte other than the header is stored
at `buffer_index` and nothing is dispatched: when the index reaches 2 the
expected length is 0 or 5, and on every other index it is not looked at. -/
theorem receive_step_accumulate (r : Receiver) (b : Nat) (hb : b ≠ UART_HEADER)
    (hh : r.header_found = true) (hi : r.buffer_index < 256)
    (hbuf : r.uart_buffer.length = 256) :
    receive_step r b =
      some ({ r with uart_buffer := r.uart_buffer.set r.buffer_index b,
                     buffer_index := r.buffer_index + 1 }, []) := by
  have hlt : r.buffer_index < r.uart_buffer.length := by omega
  have hcond : r.header_found = true ∧ r.buffer_index < MAX_PACKET_SIZE := ⟨hh, hi⟩
  have hidx : (r.buffer_index + 1) % 2 ^ 16 = r.buffer_index + 1 := by omega
  unfold receive_step
  simp only [hb, if_false, hcond, if_true, store, hlt, Option.bind_eq_bind, Option.some_bind,
    hidx]
  by_cases h2 : r.buffer_index + 1 = 2
  · have h1 : r.buffer_index = 1 := by omega
    have hget : (r.uart_buffer.set 1 b)[1]? = some b := List.getElem?_set_self (by omega)
    simp only [h1, hget, Option.some_bind, if_true]
    by_cases c1 : b = CMD_FILE_START
    · simp [expected_length, c1]
    · by_cases c2 : b = CMD_FILE_DATA
      · simp [expected_length, c1, c2]
      · by_cases c3 : b = CMD_FILE_END
        · subst c3
          simp [expected_length, CMD_FILE_END, CMD_FILE_START, CMD_FILE_DATA]
        · simp [expected_length, c1, c2, c3]
  · simp [h2]

/-- With 256 bytes buffered, a byte other than the header is dropped and the
assembler goes back to seeking. -/
theorem receive_step_overflow (r : Receiver) (b : Nat) (hb : b ≠ UART_HEADER)
    (hi : 256 ≤ r.buffer_index) :
    receive_step r b = some ({ r with buffer_index := 0, header_found := false }, []) := by
  have h1 : ¬ (r.header_found = true ∧ r.buffer_index < MAX_PACKET_SIZE) := by
    simp only [MAX_PACKET_SIZE]
    omega
  have h2 : r.buffer_index ≥ MAX_PACKET_SIZE := hi
  simp only [receive_step, hb, if_false, h1, h2, if_true]

/-- While seeking, a byte other than the header changes nothing. -/
theorem receive_step_seeking (r : Receiver) (b : Nat) (hb : b ≠ UART_HEADER)
    (hh : r.header_found = false) (hi : r.buffer_index < 256) :
    receive_step r b = some (r, []) := by
  have h1 : ¬ (r.header_found = true ∧ r.buffer_index < MAX_PACKET_SIZE) := by
    simp [hh]
  have h2 : ¬ r.buffer_index ≥ MAX_PACKET_SIZE := by
    simp only [MAX_PACKET_SIZE]
    omega
  simp only [receive_step, hb, if_false, h1, h2]

/-- One step from a state whose scratch buffer has its 256 bytes and whose
index is at most 256: the step returns, dispatches nothing, keeps `file_info`
and both bounds, and the buffer is either untouched or changed by one store
at an index below 256. -/
theorem receive_step_total (r : Receiver) (b : Nat) (hbuf : r.uart_buffer.length = 256)
    (hidx : r.buffer_index ≤ 256) :
    ∃ r', receive_step r b = some (r', []) ∧ r'.uart_buffer.length = 256 ∧
      r'.buffer_index ≤ 256 ∧ r'.file_info = r.file_info ∧
      (r'.uart_buffer = r.uart_buffer ∨
        ∃ i, i < 256 ∧ r'.uart_buffer = r.uart_buffer.set i b) := by
  by_cases hb : b = UART_HEADER
  · subst hb
    refine ⟨_, receive_step_header r hbuf, ?_, ?_, rfl, Or.inr ⟨0, by omega, rfl⟩⟩
    · simp [hbuf]
    · show 1 ≤ 256
      omega
  · by_cases hover : 256 ≤ r.buffer_index
    · exact ⟨_, receive_step_overflow r b hb hover, hbuf, by show 0 ≤ 256; omega, rfl,
        Or.inl rfl⟩
    · cases hh : r.header_found with
      | false =>
        exact ⟨r, receive_step_seeking r b hb hh (by omega), hbuf, hidx, rfl, Or.inl rfl⟩
      | true =>
        refine ⟨_, receive_step_accumulate r b hb hh (by omega) hbuf, ?_, ?_, rfl,
          Or.inr ⟨r.buffer_index, by omega, rfl⟩⟩
        · simp [hbuf]
        · show r.buffer_index + 1 ≤ 256
          omega

/-- Any byte stream, from such a state: `feed` returns, nothing is dispatched or
sent, `file_info` is kept and both bounds still hold. -/
theorem feed_total (bs : List Nat) :
    ∀ r : Receiver, r.uart_buffer.length = 256 → r.buffer_index ≤ 256 →
      ∃ r', feed r bs = some (r', []) ∧ r'.uart_buffer.length = 256 ∧
        r'.buffer_index ≤ 256 ∧ r'.file_info = r.file_info := by
  induction bs with
  | nil =>
    intro r hbuf hidx
    exact ⟨r, rfl, hbuf, hidx, rfl⟩
  | cons b bs ih =>
    intro r hbuf hidx
    obtain ⟨r1, h1, hb1, hi1, hf1, _⟩ := receive_step_total r b hbuf hidx
    obtain ⟨r2, h2, hb2, hi2, hf2⟩ := ih r1 hb1 hi1
    refine ⟨r2, ?_, hb2, hi2, by rw [hf2, hf1]⟩
    simp [feed, h1, h2]

theorem feed_cons_of_step (r r1 r2 : Receiver) (b : Nat) (bs : List Nat) (ev1 ev2 : List Event)
    (h1 : receive_step r b = some (r1, ev1)) (h2 : feed r1 bs = some (r2, ev2)) :
    feed r (b :: bs) = some (r2, ev1 ++ ev2) := by
  simp [feed, h1, h2]

/-- A stream without header byte leaves a seeking receiver as it is. -/
theorem feed_seeking (bs : List Nat) (r : Receiver) (hh : r.header_found = false)
    (hi : r.buffer_index < 256) (hbs : ∀ b ∈ bs, b ≠ UART_HEADER) :
    feed r bs = some (r, []) := by
  induction bs with
  | nil => rfl
  | cons b bs ih =>
    have h1 := receive_step_seeking r b (hbs b (List.mem_cons_self _ _)) hh hi
    have h2 := ih (fun c hc => hbs c (List.mem_cons_of_mem _ hc))
    simp [feed, h1, h2]

/-! ## C15: a stream without header byte -/

/-- C15. For every finite byte sequence without a byte `0x81`, feeding it byte
by byte from the initialised state returns, records no handler invocation and
no transmitted byte, and leaves `header_found = false` and `buffer_index = 0`
(the receiver is exactly the initial one). -/
theorem headerless_stream_ignored (bs : List Nat) (hbs : ∀ b ∈ bs, b ≠ 0x81) :
    ∃ r ev, feed initial bs = some (r, ev) ∧ handler_calls ev = [] ∧ sent_bytes ev = [] ∧
      ev = [] ∧ r.header_found = false ∧ r.buffer_index = 0 ∧ r = initial :=
  ⟨initial, [], feed_seeking bs initial rfl (by decide) hbs, rfl, rfl, rfl, rfl, rfl, rfl⟩

/-- C15 on the stream `0x90 0x05 0x00 0xFF`. -/
theorem headerless_stream_ignored_witness :
    feed initial [0x90, 0x05, 0x00, 0xFF] = some (initial, []) := by
  obtain ⟨r, ev, h, _, _, hev, _, _, hr⟩ :=
    headerless_stream_ignored [0x90, 0x05, 0x00, 0xFF] (by decide)
  rw [hev, hr] at h
  exact h

/-! ## C19: what a byte does while accumulating -/

set_option maxRecDepth 10000 in
/-- C19 as stated fails for the byte `0x81`: after `0x81 0x91 0x00` the receiver
is accumulating with `buffer_index = 3`; the byte `0x81` is then not stored at
position 3 and `buffer_index` becomes 1, not 4. Four bytes of a FILE_DATA frame
are not a complete frame, so the proviso of the claim holds here. -/
theorem header_byte_restarts_frame :
    feed initial [0x81, 0x91, 0] = some (accumulating_three, []) ∧
    accumulating_three.header_found = true ∧ accumulating_three.buffer_index = 3 ∧
    (receive_step accumulating_three 0x81).map
        (fun p => (p.1.buffer_index, p.1.uart_buffer[3]?, p.2)) = some (1, some 0, []) ∧
    frame_complete (accumulating_three.uart_buffer.set 3 0x81) 4 = false := by
  refine ⟨by rfl, rfl, rfl, by rfl, by rfl⟩

/-- C19, amended. Whenever the assembler is accumulating (`header_found = true`)
with `1 ≤ buffer_index < 256` and the ingested byte does not complete a frame
(with it appended, the buffered bytes do not reach the expected frame length),
a byte `b` other than `0x81` is stored at position `buffer_index`, `buffer_index`
grows by one, the other buffered bytes and the session are unchanged, and
nothing is dispatched or sent. The byte `0x81` is compared first in every
state: under the same proviso it is stored at position 0, `buffer_index` becomes
1, `header_found` stays true and the other scratch bytes are unchanged. Nothing
is said about a byte that completes a frame. -/
theorem accumulation_appends (r : Receiver) (b : Nat) (hh : r.header_found = true)
    (h1 : 1 ≤ r.buffer_index) (hi : r.buffer_index < 256)
    (hbuf : r.uart_buffer.length = 256)
    (_hopen : frame_complete (r.uart_buffer.set r.buffer_index b) (r.buffer_index + 1) = false) :
    (b ≠ 0x81 →
      ∃ r', receive_step r b = some (r', []) ∧ r'.uart_buffer[r.buffer_index]? = some b ∧
        r'.buffer_index = r.buffer_index + 1 ∧
        (∀ j, j ≠ r.buffer_index → r'.uart_buffer[j]? = r.uart_buffer[j]?) ∧
        r'.header_found = true ∧ r'.file_info = r.file_info) ∧
    (b = 0x81 →
      ∃ r', receive_step r b = some (r', []) ∧ r'.uart_buffer[0]? = some 0x81 ∧
        r'.buffer_index = 1 ∧
        (∀ j, j ≠ 0 → r'.uart_buffer[j]? = r.uart_buffer[j]?) ∧
        r'.header_found = true ∧ r'.file_info = r.file_info) := by
  constructor
  · intro hb
    refine ⟨_, receive_step_accumulate r b hb hh hi hbuf, ?_, rfl, ?_, hh, rfl⟩
    · exact List.getElem?_set_self (by omega)
    · intro j hj
      exact List.getElem?_set_ne (fun h => hj h.symm)
  · intro hb
    subst hb
    refine ⟨_, receive_step_header r hbuf, ?_, rfl, ?_, rfl, rfl⟩
    · exact List.getElem?_set_self (by omega)
    · intro j hj
      exact List.getElem?_set_ne (fun h => hj h.symm)

theorem accumulating_three_buffer : accumulating_three.uart_buffer.length = 256 := by
  show ([0x81, 0x91, 0] ++ List.replicate 253 0).length = 256
  rw [List.length_append, List.length_replicate]
  rfl

set_option maxRecDepth 10000 in
/-- After `0x81 0x91 0x00` a fourth byte never completes the FILE_DATA frame. -/
theorem accumulating_three_open (b : Nat) :
    frame_complete (accumulating_three.uart_buffer.set 3 b) 4 = false := by
  rfl

set_option maxRecDepth 10000 in
/-- The completion test on the frames of Scenarios 1, 2 and 3: true once the last
byte is buffered, false one byte earlier. -/
theorem frame_complete_scenarios :
    frame_complete (scenario1_frame ++ List.replicate 243 0) 13 = true ∧
    frame_complete (scenario1_frame ++ List.replicate 243 0) 12 = false ∧
    frame_complete (scenario2_frame ++ List.replicate 240 0) 16 = true ∧
    frame_complete (scenario2_frame ++ List.replicate 240 0) 15 = false ∧
    frame_complete (scenario3_frame ++ List.replicate 251 0) 5 = true ∧
    frame_complete (scenario3_frame ++ List.replicate 251 0) 4 = false := by
  refine ⟨by rfl, by rfl, by rfl, by rfl, by rfl, by rfl⟩

/-- C19 amended, after `0x81 0x91 0x00`, where a fourth byte does not complete
the FILE_DATA frame: the byte `0x07` goes to position 3 and `buffer_index`
becomes 4; the byte `0x81` goes to position 0 and `buffer_index` becomes 1. -/
theorem accumulation_appends_witness :
    (∃ r', receive_step accumulating_three 0x07 = some (r', []) ∧
      r'.uart_buffer[3]? = some 0x07 ∧ r'.buffer_index = 4) ∧
    (∃ r', receive_step accumulating_three 0x81 = some (r', []) ∧
      r'.uart_buffer[0]? = some 0x81 ∧ r'.buffer_index = 1) := by
  constructor
  · obtain ⟨r', h, hs, hidx, _⟩ := (accumulation_appends accumulating_three 0x07 rfl
      (by decide) (by decide) accumulating_three_buffer (accumulating_three_open 0x07)).1
      (by decide)
    exact ⟨r', h, hs, hidx⟩
  · obtain ⟨r', h, hs, hidx, _⟩ := (accumulation_appends accumulating_three 0x81 rfl
      (by decide) (by decide) accumulating_three_buffer (accumulating_three_open 0x81)).2 rfl
    exact ⟨r', h, hs, hidx⟩

/-! ## C20: the scratch buffer never overflows -/

/-- Accumulating `bs` without header byte while the bytes still fit: the index
grows by the number of bytes. -/
theorem feed_accumulate (bs : List Nat) :
    ∀ r : Receiver, r.header_found = true → r.uart_buffer.length = 256 →
      r.buffer_index + bs.length ≤ 256 → (∀ b ∈ bs, b ≠ UART_HEADER) →
      ∃ r', feed r bs = some (r', []) ∧ r'.buffer_index = r.buffer_index + bs.length ∧
        r'.header_found = true ∧ r'.uart_buffer.length = 256 := by
  induction bs with
  | nil =>
    intro r hh hbuf _ _
    exact ⟨r, rfl, rfl, hh, hbuf⟩
  | cons b bs ih =>
    intro r hh hbuf hfit hbs
    have hlen : (b :: bs).length = bs.length + 1 := rfl
    have h1 := receive_step_accumulate r b (hbs b (List.mem_cons_self _ _)) hh (by omega) hbuf
    obtain ⟨r2, h2, hi2, hh2, hb2⟩ := ih
      { r with uart_buffer := r.uart_buffer.set r.buffer_index b,
               buffer_index := r.buffer_index + 1 }
      hh (by simp [hbuf]) (by show r.buffer_index + 1 + bs.length ≤ 256; omega)
      (fun c hc => hbs c (List.mem_cons_of_mem _ hc))
    refine ⟨r2, by simp [feed, h1, h2], ?_, hh2, hb2⟩
    rw [hi2, hlen]
    show r.buffer_index + 1 + bs.length = r.buffer_index + (bs.length + 1)
    omega

/-- C20. For every byte stream fed from the initialised state the per-byte step
always returns, nothing is dispatched or sent, and the state reached has
`buffer_index ≤ 256` with a scratch buffer of 256 bytes; from it, the next byte
either leaves the scratch buffer untouched or is stored at one index below 256.
When 256 bytes are buffered, a next byte other than `0x81` is not stored and
leaves `header_found = false`, `buffer_index = 0`, with no handler invoked and
nothing sent. -/
theorem scratch_buffer_bounded (bs : List Nat) :
    ∃ r, feed initial bs = some (r, []) ∧ r.buffer_index ≤ 256 ∧
      r.uart_buffer.length = 256 ∧
      ∀ b, ∃ r', receive_step r b = some (r', []) ∧ r'.buffer_index ≤ 256 ∧
        (r'.uart_buffer = r.uart_buffer ∨
          ∃ i, i < 256 ∧ r'.uart_buffer = r.uart_buffer.set i b) ∧
        (r.buffer_index = 256 → b ≠ 0x81 →
          r'.uart_buffer = r.uart_buffer ∧ r'.header_found = false ∧
          r'.buffer_index = 0 ∧ r'.file_info = r.file_info) := by
  obtain ⟨r, hfeed, hbuf, hidx, _⟩ := feed_total bs initial (List.length_replicate _ _)
    (by show 0 ≤ 256; omega)
  refine ⟨r, hfeed, hidx, hbuf, ?_⟩
  intro b
  obtain ⟨r', hstep, _, hidx', _, hstore⟩ := receive_step_total r b hbuf hidx
  refine ⟨r', hstep, hidx', hstore, ?_⟩
  intro hfull hb
  have hover := receive_step_overflow r b hb (by omega)
  rw [hover] at hstep
  cases hstep
  exact ⟨rfl, rfl, rfl, rfl⟩

/-- C20 on the stream `0x81` followed by 255 zero bytes: 256 bytes are buffered,
and a further zero byte is dropped and resets the assembler. -/
theorem scratch_buffer_bounded_witness :
    ∃ r, feed initial (0x81 :: List.replicate 255 0) = some (r, []) ∧ r.buffer_index = 256 ∧
      ∃ r', receive_step r 0 = some (r', []) ∧ r'.uart_buffer = r.uart_buffer ∧
        r'.header_found = false ∧ r'.buffer_index = 0 := by
  obtain ⟨r, hfeed, _, _, hnext⟩ := scratch_buffer_bounded (0x81 :: List.replicate 255 0)
  have hstep := receive_step_header initial (List.length_replicate _ _)
  obtain ⟨r2, h2, hi2, _, _⟩ := feed_accumulate (List.replicate 255 0)
    { initial with uart_buffer := initial.uart_buffer.set 0 UART_HEADER,
                   buffer_index := 1, header_found := true }
    rfl (by rw [List.length_set]; exact List.length_replicate _ _)
    (by rw [List.length_replicate]) (by
      intro b hb
      rw [List.eq_of_mem_replicate hb]
      decide)
  have hfeed2 : feed initial (0x81 :: List.replicate 255 0) = some (r2, []) :=
    feed_cons_of_step _ _ _ _ _ _ _ hstep h2
  have hr : r = r2 := by
    rw [hfeed2] at hfeed
    exact ((Prod.mk.inj (Option.some.inj hfeed)).1).symm
  rw [List.length_replicate] at hi2
  have h256 : r.buffer_index = 256 := by
    rw [hr]
    exact hi2
  obtain ⟨r', hs, _, _, hreset⟩ := hnext 0
  obtain ⟨e1, e2, e3, _⟩ := hreset h256 (by decide)
  exact ⟨r, hfeed, h256, r', hs, e1, e2, e3⟩

/-! ## Every outcome of the three handlers -/

/-- The outcomes of `handle_file_start` when it returns: NACK with the session
untouched (length checks), NACK with only the filename copied (declared size
above 10240), READY with the session opened, or NACK with the opened session
marked inactive (checksum byte `packet[7 + n]` wrong). -/
theorem handle_file_start_cases (f g : file_transfer_t) (packet : List Nat) (length : Nat)
    (ev : List Event) (h : handle_file_start f packet length = some (g, ev)) :
    (length < 8 ∧ g = f ∧ ev = NACK) ∨
    ∃ n, 8 ≤ length ∧ packet[2]? = some n ∧
      (((n > 63 ∨ length < 7 + n) ∧ g = f ∧ ev = NACK) ∨
        (n ≤ 63 ∧ 7 + n ≤ length ∧ ∃ name b3 b2 b1 b0,
          (memcpy f.filename 0 packet 3 n).bind (fun d => store d n 0) = some name ∧
          packet[3 + n]? = some b3 ∧ packet[4 + n]? = some b2 ∧
          packet[5 + n]? = some b1 ∧ packet[6 + n]? = some b0 ∧
          ((be32 b3 b2 b1 b0 > 10240 ∧ g = { f with filename := name } ∧ ev = NACK) ∨
            (be32 b3 b2 b1 b0 ≤ 10240 ∧ ∃ c, packet[7 + n]? = some c ∧
              ((c = (packet.take (7 + n)).sum % 256 ∧ ev = READY ∧
                  g = { filename := name, file_size := be32 b3 b2 b1 b0,
                        total_packets := ((be32 b3 b2 b1 b0 + 256 - 1) % 2 ^ 32 / 256) % 2 ^ 16,
                        received_packets := 0, file_data := List.replicate 10240 0,
                        transfer_active := true }) ∨
                (c ≠ (packet.take (7 + n)).sum % 256 ∧ ev = NACK ∧
                  g = { filename := name, file_size := be32 b3 b2 b1 b0,
                        total_packets := ((be32 b3 b2 b1 b0 + 256 - 1) % 2 ^ 32 / 256) % 2 ^ 16,
                        received_packets := 0, file_data := List.replicate 10240 0,
                        transfer_active := false })))))) := by
  unfold handle_file_start at h
  by_cases hA : length < 8
  · simp only [hA, if_true, send_nack_eq, Option.bind_eq_bind, Option.some_bind,
      Option.some.injEq, Prod.mk.injEq] at h
    exact Or.inl ⟨hA, h.1.symm, h.2.symm⟩
  · simp only [hA, if_false, Option.bind_eq_bind] at h
    cases h2 : packet[2]? with
    | none => simp only [h2, Option.none_bind, reduceCtorEq] at h
    | some n =>
      simp only [h2, Option.some_bind] at h
      refine Or.inr ⟨n, by omega, rfl, ?_⟩
      by_cases hB : n > MAX_FILENAME_LEN - 1 ∨ length < 7 + n
      · simp only [hB, if_true, send_nack_eq, Option.some_bind, Option.some.injEq,
          Prod.mk.injEq] at h
        simp only [MAX_FILENAME_LEN] at hB
        exact Or.inl ⟨by omega, h.1.symm, h.2.symm⟩
      · simp only [hB, if_false] at h
        simp only [MAX_FILENAME_LEN] at hB
        cases hm : (memcpy f.filename 0 packet 3 n) with
        | none => simp only [hm, Option.none_bind, reduceCtorEq] at h
        | some d =>
          simp only [hm, Option.some_bind] at h
          cases hs : store d n 0 with
          | none => simp only [hs, Option.none_bind, reduceCtorEq] at h
          | some name =>
            simp only [hs, Option.some_bind] at h
            cases h3 : packet[3 + n]? with
            | none => simp only [h3, Option.none_bind, reduceCtorEq] at h
            | some b3 =>
              cases h4 : packet[4 + n]? with
              | none => simp only [h3, h4, Option.none_bind, Option.some_bind, reduceCtorEq] at h
              | some b2 =>
                cases h5 : packet[5 + n]? with
                | none =>
                  simp only [h3, h4, h5, Option.none_bind, Option.some_bind, reduceCtorEq] at h
                | some b1 =>
                  cases h6 : packet[6 + n]? with
                  | none =>
                    simp only [h3, h4, h5, h6, Option.none_bind, Option.some_bind,
                      reduceCtorEq] at h
                  | some b0 =>
                    simp only [h3, h4, h5, h6, Option.some_bind] at h
                    refine Or.inr ⟨by omega, by omega, name, b3, b2, b1, b0, ?_, rfl, rfl, rfl,
                      rfl, ?_⟩
                    · simp only [Option.some_bind, hs]
                    by_cases hbig : be32 b3 b2 b1 b0 > MAX_FILE_SIZE
                    · simp only [hbig, if_true, send_nack_eq, Option.some_bind,
                        Option.some.injEq, Prod.mk.injEq] at h
                      exact Or.inl ⟨hbig, h.1.symm, h.2.symm⟩
                    · simp only [hbig, if_false] at h
                      have hplen : 6 + n < packet.length := by
                        rcases List.getElem?_eq_some.mp h6 with ⟨h', _⟩
                        exact h'
                      rw [calculate_crc_eq packet (7 + n) (by omega)] at h
                      simp only [MAX_FILE_SIZE] at hbig
                      cases h7 : packet[7 + n]? with
                      | none => simp only [h7, Option.none_bind, reduceCtorEq] at h
                      | some c =>
                        simp only [h7, Option.some_bind] at h
                        refine Or.inr ⟨by omega, c, rfl, ?_⟩
                        by_cases hc : c = (packet.take (7 + n)).sum % 256
                        · simp only [hc, if_true, send_ready_eq, Option.some_bind,
                            Option.some.injEq, Prod.mk.injEq, MAX_FILE_SIZE,
                            PACKET_DATA_SIZE] at h
                          exact Or.inl ⟨hc, h.2.symm, h.1.symm⟩
                        · simp only [hc, if_false, send_nack_eq, Option.some_bind,
                            Option.some.injEq, Prod.mk.injEq, MAX_FILE_SIZE,
                            PACKET_DATA_SIZE] at h
                          exact Or.inr ⟨hc, h.2.symm, h.1.symm⟩

/-- The outcomes of `handle_file_data` when it returns: NACK with the session
untouched, or, on an active session past the length and bounds checks, the
payload copied and then ACK with the counter incremented or NACK, as the
checksum byte `packet[5 + dl]` decides. -/
theorem handle_file_data_cases (f g : file_transfer_t) (packet : List Nat) (length : Nat)
    (ev : List Event) (h : handle_file_data f packet length = some (g, ev)) :
    (g = f ∧ ev = NACK) ∨
    (f.transfer_active = true ∧ ∃ hi lo dl data c,
      packet[2]? = some hi ∧ packet[3]? = some lo ∧ packet[4]? = some dl ∧
      dl ≤ 256 ∧ 6 + dl ≤ length ∧
      ¬ ((data_offset (be16 hi lo) + dl) % 2 ^ 32 > MAX_FILE_SIZE) ∧
      memcpy f.file_data (data_offset (be16 hi lo)) packet 5 dl = some data ∧
      packet[5 + dl]? = some c ∧
      ((c = (packet.take (5 + dl)).sum % 256 ∧ ev = ACK ∧
          g = { f with file_data := data,
                       received_packets := (f.received_packets + 1) % 2 ^ 16 }) ∨
        (c ≠ (packet.take (5 + dl)).sum % 256 ∧ ev = NACK ∧
          g = { f with file_data := data }))) := by
  by_cases hact : f.transfer_active = false
  · simp only [handle_file_data, hact, if_true, send_nack_eq, Option.bind_eq_bind,
      Option.some_bind, Option.some.injEq, Prod.mk.injEq] at h
    exact Or.inl ⟨h.1.symm, h.2.symm⟩
  · have hact1 : f.transfer_active = true := by simpa using hact
    by_cases h6 : length < 6
    · simp only [handle_file_data, hact1, h6, if_true, send_nack_eq, Option.bind_eq_bind,
        Option.some_bind, Option.some.injEq, Prod.mk.injEq, Bool.true_eq_false,
        if_false] at h
      exact Or.inl ⟨h.1.symm, h.2.symm⟩
    · cases h2 : packet[2]? with
      | none =>
        simp only [handle_file_data, hact1, h6, h2, Option.bind_eq_bind, Option.none_bind,
          Bool.true_eq_false, if_false, reduceCtorEq] at h
      | some hi =>
        cases h3 : packet[3]? with
        | none =>
          simp only [handle_file_data, hact1, h6, h2, h3, Option.bind_eq_bind,
            Option.none_bind, Option.some_bind, Bool.true_eq_false, if_false,
            reduceCtorEq] at h
        | some lo =>
          cases h4 : packet[4]? with
          | none =>
            simp only [handle_file_data, hact1, h6, h2, h3, h4, Option.bind_eq_bind,
              Option.none_bind, Option.some_bind, Bool.true_eq_false, if_false,
              reduceCtorEq] at h
          | some dl =>
            rw [handle_file_data_eq f packet length hi lo dl hact1 (by omega) h2 h3 h4] at h
            by_cases hB : dl > 256 ∨ length < 5 + dl + 1
            · simp only [hB, if_true, Option.some.injEq, Prod.mk.injEq] at h
              exact Or.inl ⟨h.1.symm, h.2.symm⟩
            · simp only [hB, if_false] at h
              by_cases hfit : (data_offset (be16 hi lo) + dl) % 2 ^ 32 > MAX_FILE_SIZE
              · simp only [hfit, if_true, Option.some.injEq, Prod.mk.injEq] at h
                exact Or.inl ⟨h.1.symm, h.2.symm⟩
              · simp only [hfit, if_false] at h
                cases hm : memcpy f.file_data (data_offset (be16 hi lo)) packet 5 dl with
                | none => simp only [hm, Option.none_bind, reduceCtorEq] at h
                | some data =>
                  simp only [hm, Option.some_bind] at h
                  cases hc : packet[5 + dl]? with
                  | none => simp only [hc, Option.none_bind, reduceCtorEq] at h
                  | some c =>
                    have hplen : 5 + dl < packet.length := by
                      rcases List.getElem?_eq_some.mp hc with ⟨h', _⟩
                      exact h'
                    simp only [hc, Option.some_bind,
                      calculate_crc_eq packet (5 + dl) (by omega)] at h
                    refine Or.inr ⟨hact1, hi, lo, dl, data, c, rfl, rfl, rfl, by omega,
                      by omega, hfit, hm, hc, ?_⟩
                    by_cases hcc : c = (packet.take (5 + dl)).sum % 256
                    · simp only [hcc, if_true, Option.some.injEq, Prod.mk.injEq] at h
                      exact Or.inl ⟨hcc, h.2.symm, h.1.symm⟩
                    · simp only [hcc, if_false, Option.some.injEq, Prod.mk.injEq] at h
                      exact Or.inr ⟨hcc, h.2.symm, h.1.symm⟩

/-- The outcomes of `handle_file_end` when it returns: NACK with the session
untouched (inactive or short packet), NACK with only `transfer_active` cleared
(checksum byte `packet[4]` wrong), or one `save_file` call followed by ACK and
the zeroed session. -/
theorem handle_file_end_cases (f g : file_transfer_t) (packet : List Nat) (length : Nat)
    (ev : List Event) (h : handle_file_end f packet length = some (g, ev)) :
    ((f.transfer_active = false ∨ length < 5) ∧ g = f ∧ ev = NACK) ∨
    (f.transfer_active = true ∧ 5 ≤ length ∧ ∃ c, packet[4]? = some c ∧
      ((c ≠ (packet.take 4).sum % 256 ∧ ev = NACK ∧
          g = { f with transfer_active := false }) ∨
        (c = (packet.take 4).sum % 256 ∧
          ev = Event.save f.filename f.file_data f.file_size :: ACK ∧
          g = zero_file_info))) := by
  by_cases hact : f.transfer_active = false
  · simp only [handle_file_end, hact, if_true, send_nack_eq, Option.bind_eq_bind,
      Option.some_bind, Option.some.injEq, Prod.mk.injEq] at h
    exact Or.inl ⟨Or.inl hact, h.1.symm, h.2.symm⟩
  · have hact1 : f.transfer_active = true := by simpa using hact
    by_cases h5 : length < 5
    · simp only [handle_file_end, hact1, h5, if_true, send_nack_eq, Option.bind_eq_bind,
        Option.some_bind, Option.some.injEq, Prod.mk.injEq, Bool.true_eq_false,
        if_false] at h
      exact Or.inl ⟨Or.inr h5, h.1.symm, h.2.symm⟩
    · cases h2 : packet[2]? with
      | none =>
        simp only [handle_file_end, hact1, h5, h2, Option.bind_eq_bind, Option.none_bind,
          Bool.true_eq_false, if_false, reduceCtorEq] at h
      | some hi =>
        cases h3 : packet[3]? with
        | none =>
          simp only [handle_file_end, hact1, h5, h2, h3, Option.bind_eq_bind,
            Option.none_bind, Option.some_bind, Bool.true_eq_false, if_false,
            reduceCtorEq] at h
        | some lo =>
          cases h4 : packet[4]? with
          | none =>
            simp only [handle_file_end, hact1, h5, h2, h3, h4, Option.bind_eq_bind,
              Option.none_bind, Option.some_bind, Bool.true_eq_false, if_false,
              reduceCtorEq] at h
          | some c =>
            rw [handle_file_end_eq f packet length hi lo c hact1 (by omega) h2 h3 h4] at h
            refine Or.inr ⟨hact1, by omega, c, rfl, ?_⟩
            by_cases hc : c ≠ (packet.take 4).sum % 256
            · rw [if_pos hc] at h
              simp only [Option.some.injEq, Prod.mk.injEq] at h
              exact Or.inl ⟨hc, h.2.symm, h.1.symm⟩
            · have hc' : c = (packet.take 4).sum % 256 := by
                by_contra hne
                exact hc hne
              rw [if_neg hc] at h
              simp only [Option.some.injEq, Prod.mk.injEq] at h
              exact Or.inr ⟨hc', h.2.symm, h.1.symm⟩

/-! ## C13: when `save_file` is called -/

/-- A `handle_file_end` whose packet really has `length` bytes returns. -/
theorem handle_file_end_total (f : file_transfer_t) (packet : List Nat) (length : Nat)
    (hlen : length ≤ packet.length) : ∃ g ev, handle_file_end f packet length = some (g, ev) := by
  by_cases hact : f.transfer_active = false
  · exact ⟨f, NACK, by simp [handle_file_end, hact, send_nack_eq]⟩
  · have hact1 : f.transfer_active = true := by simpa using hact
    by_cases h5 : length < 5
    · exact ⟨f, NACK, by simp [handle_file_end, hact1, h5, send_nack_eq]⟩
    · have e2 : packet[2]? = some packet[2] := List.getElem?_eq_getElem (by omega)
      have e3 : packet[3]? = some packet[3] := List.getElem?_eq_getElem (by omega)
      have e4 : packet[4]? = some packet[4] := List.getElem?_eq_getElem (by omega)
      rw [handle_file_end_eq f packet length _ _ _ hact1 (by omega) e2 e3 e4]
      by_cases hc : packet[4] ≠ (packet.take 4).sum % 256
      · exact ⟨_, _, if_pos hc⟩
      · exact ⟨_, _, if_neg hc⟩

/-- A `handle_file_start` whose packet extends at least one byte past `length`
(as the 256-byte scratch buffer does for every frame shorter than 256) returns. -/
theorem handle_file_start_total (f : file_transfer_t) (packet : List Nat) (length : Nat)
    (hname : f.filename.length = 64) (hlen : length < packet.length) :
    ∃ g ev, handle_file_start f packet length = some (g, ev) := by
  by_cases hA : length < 8
  · exact ⟨f, NACK, by simp [handle_file_start, hA, send_nack_eq]⟩
  · obtain ⟨n, e2⟩ : ∃ n, packet[2]? = some n := ⟨_, List.getElem?_eq_getElem (by omega)⟩
    by_cases hB : n > MAX_FILENAME_LEN - 1 ∨ length < 7 + n
    · exact ⟨f, NACK, by simp [handle_file_start, hA, e2, hB, send_nack_eq]⟩
    · simp only [MAX_FILENAME_LEN] at hB
      obtain ⟨b3, e3⟩ : ∃ b, packet[3 + n]? = some b := ⟨_, List.getElem?_eq_getElem (by omega)⟩
      obtain ⟨b2, e4⟩ : ∃ b, packet[4 + n]? = some b := ⟨_, List.getElem?_eq_getElem (by omega)⟩
      obtain ⟨b1, e5⟩ : ∃ b, packet[5 + n]? = some b := ⟨_, List.getElem?_eq_getElem (by omega)⟩
      obtain ⟨b0, e6⟩ : ∃ b, packet[6 + n]? = some b := ⟨_, List.getElem?_eq_getElem (by omega)⟩
      obtain ⟨c, e7⟩ : ∃ b, packet[7 + n]? = some b := ⟨_, List.getElem?_eq_getElem (by omega)⟩
      obtain ⟨name, _, _, heq⟩ := handle_file_start_eq f packet length n b3 b2 b1 b0
        (by omega) e2 (by omega) (by omega) hname e3 e4 e5 e6
      rw [e7, Option.some_bind] at heq
      rw [heq]
      by_cases hbig : be32 b3 b2 b1 b0 > 10240
      · exact ⟨_, _, if_pos hbig⟩
      · rw [if_neg hbig]
        by_cases hc : c = (packet.take (7 + n)).sum % 256
        · exact ⟨_, _, if_pos hc⟩
        · exact ⟨_, _, if_neg hc⟩

/-- C13. For every session, packet and length: a returning `handle_file_start`
or `handle_file_data` records no call of `save_file`; a returning
`handle_file_end` records a call exactly when `transfer_active` is true,
`length ≥ 5` and `packet[4]` is the sum of `packet[0..3]` modulo 256, and then
it is one call, with the session's filename, buffer and `file_size`. The
handlers do return: `handle_file_end` and `handle_file_data` on a packet (of
bytes) that has its `length` bytes, `handle_file_start` on a packet that extends
one byte further. -/
theorem save_file_discipline (f : file_transfer_t) (packet : List Nat) (length : Nat) :
    (∀ g ev, handle_file_start f packet length = some (g, ev) → save_calls ev = []) ∧
    (∀ g ev, handle_file_data f packet length = some (g, ev) → save_calls ev = []) ∧
    (∀ g ev, handle_file_end f packet length = some (g, ev) →
      (save_calls ev ≠ [] ↔
        (f.transfer_active = true ∧ 5 ≤ length ∧
          packet[4]? = some ((packet.take 4).sum % 256))) ∧
      (save_calls ev = [] ∨ save_calls ev = [(f.filename, f.file_data, f.file_size)])) ∧
    (length ≤ packet.length → ∃ g ev, handle_file_end f packet length = some (g, ev)) ∧
    (f.file_data.length = 10240 → IsBytes packet → length ≤ packet.length →
      ∃ g ev, handle_file_data f packet length = some (g, ev)) ∧
    (f.filename.length = 64 → length < packet.length →
      ∃ g ev, handle_file_start f packet length = some (g, ev)) := by
  refine ⟨?_, ?_, ?_, handle_file_end_total f packet length, ?_,
    handle_file_start_total f packet length⟩
  rotate_right
  · intro hbuf hbytes hlen
    obtain ⟨g, ev, h, _⟩ := handle_file_data_total f packet length hbuf hbytes hlen
    exact ⟨g, ev, h⟩
  · intro g ev h
    rcases handle_file_start_cases f g packet length ev h with
      ⟨_, _, rfl⟩ | ⟨n, _, _, ⟨_, _, rfl⟩ | ⟨_, _, name, b3, b2, b1, b0, _, _, _, _, _,
        ⟨_, _, rfl⟩ | ⟨_, c, _, ⟨_, rfl, _⟩ | ⟨_, rfl, _⟩⟩⟩⟩ <;> rfl
  · intro g ev h
    rcases handle_file_data_cases f g packet length ev h with
      ⟨_, rfl⟩ | ⟨_, hi, lo, dl, data, c, _, _, _, _, _, _, _, _,
        ⟨_, rfl, _⟩ | ⟨_, rfl, _⟩⟩ <;> rfl
  · intro g ev h
    rcases handle_file_end_cases f g packet length ev h with
      ⟨hno, _, rfl⟩ | ⟨hact, h5, c, hc, ⟨hne, rfl, _⟩ | ⟨heq, rfl, _⟩⟩
    · refine ⟨⟨fun hs => absurd rfl hs, ?_⟩, Or.inl rfl⟩
      rintro ⟨hact, h5, _⟩
      rcases hno with hno | hno
      · rw [hact] at hno
        exact absurd hno (by decide)
      · omega
    · refine ⟨⟨fun hs => absurd rfl hs, ?_⟩, Or.inl rfl⟩
      rintro ⟨_, _, h4⟩
      rw [hc] at h4
      exact absurd (Option.some.inj h4) hne
    · refine ⟨⟨fun _ => ⟨hact, h5, by rw [hc, heq]⟩, fun _ => ?_⟩, Or.inr rfl⟩
      show (f.filename, f.file_data, f.file_size) :: save_calls ACK ≠ []
      exact List.cons_ne_nil _ _

/-- C13 on the scenarios: FILE_START and FILE_DATA record no `save_file` call,
the FILE_END of Scenario 3 records exactly one. -/
theorem save_file_discipline_witness :
    save_calls READY = [] ∧
    (∀ g ev, handle_file_end session_started scenario3_frame 5 = some (g, ev) →
      save_calls ev =
        [(session_started.filename, session_started.file_data, session_started.file_size)]) := by
  refine ⟨(save_file_discipline zero_file_info scenario1_frame 13).1 _ _ scenario1_run, ?_⟩
  intro g ev h
  obtain ⟨hiff, hone⟩ := (save_file_discipline session_started scenario3_frame 5).2.2.1 g ev h
  rcases hone with h0 | h1
  · exact absurd h0 (hiff.mpr ⟨rfl, by decide, rfl⟩)
  · exact h1

/-! ## C12: the invariant of an active session -/

/-- One handler invocation keeps: an active session has `file_size ≤ 10240` and
`total_packets = ceil (file_size / 256)`. -/
theorem invoke_keeps_invariant (f g : file_transfer_t) (c : Invocation) (ev : List Event)
    (h : invoke f c = some (g, ev))
    (hinv : f.transfer_active = true →
      f.file_size ≤ 10240 ∧ f.total_packets = (f.file_size + 255) / 256) :
    g.transfer_active = true →
      g.file_size ≤ 10240 ∧ g.total_packets = (g.file_size + 255) / 256 := by
  obtain ⟨hd, packet, length⟩ := c
  cases hd with
  | file_start =>
    rcases handle_file_start_cases f g packet length ev h with
      ⟨_, rfl, _⟩ | ⟨n, _, _, ⟨_, rfl, _⟩ | ⟨_, _, name, b3, b2, b1, b0, _, _, _, _, _,
        ⟨_, rfl, _⟩ | ⟨hsz, c, _, ⟨_, _, rfl⟩ | ⟨_, _, rfl⟩⟩⟩⟩
    · exact hinv
    · exact hinv
    · exact hinv
    · intro _
      refine ⟨hsz, ?_⟩
      show ((be32 b3 b2 b1 b0 + 256 - 1) % 2 ^ 32 / 256) % 2 ^ 16 = (be32 b3 b2 b1 b0 + 255) / 256
      omega
    · intro hact
      exact absurd hact Bool.false_ne_true
  | file_data =>
    rcases handle_file_data_cases f g packet length ev h with
      ⟨rfl, _⟩ | ⟨_, hi, lo, dl, data, c, _, _, _, _, _, _, _, _,
        ⟨_, _, rfl⟩ | ⟨_, _, rfl⟩⟩
    · exact hinv
    · exact hinv
    · exact hinv
  | file_end =>
    rcases handle_file_end_cases f g packet length ev h with
      ⟨_, rfl, _⟩ | ⟨_, _, c, _, ⟨_, _, rfl⟩ | ⟨_, _, rfl⟩⟩
    · exact hinv
    · intro hact
      exact absurd hact Bool.false_ne_true
    · intro hact
      exact absurd hact Bool.false_ne_true

theorem run_keeps_invariant (calls : List Invocation) :
    ∀ (f g : file_transfer_t) (ev : List Event), run f calls = some (g, ev) →
      (f.transfer_active = true →
        f.file_size ≤ 10240 ∧ f.total_packets = (f.file_size + 255) / 256) →
      g.transfer_active = true →
        g.file_size ≤ 10240 ∧ g.total_packets = (g.file_size + 255) / 256 := by
  induction calls with
  | nil =>
    intro f g ev h hinv
    simp only [run, Option.some.injEq, Prod.mk.injEq] at h
    rw [← h.1]
    exact hinv
  | cons c cs ih =>
    intro f g ev h hinv
    cases h1 : invoke f c with
    | none => simp [run, h1] at h
    | some p =>
      obtain ⟨f1, ev1⟩ := p
      cases h2 : run f1 cs with
      | none => simp [run, h1, h2] at h
      | some q =>
        obtain ⟨f2, ev2⟩ := q
        simp only [run, h1, h2, Option.some.injEq, Prod.mk.injEq] at h
        rw [← h.1]
        exact ih f1 f2 ev2 h2 (invoke_keeps_invariant f f1 c ev1 h1 hinv)

/-- C12. In every state reached from the state `init_uart_receiver` leaves by a
finite sequence of invocations of `handle_file_start`, `handle_file_data` and
`handle_file_end` on arbitrary packets and lengths, `transfer_active = true`
implies `file_size ≤ 10240` and `total_packets = ceil (file_size / 256)`, hence
`total_packets ≤ 40`. -/
theorem active_session_invariant (r : Receiver) (calls : List Invocation)
    (g : file_transfer_t) (ev : List Event)
    (hrun : run (init_uart_receiver r).file_info calls = some (g, ev))
    (hact : g.transfer_active = true) :
    g.file_size ≤ 10240 ∧ g.total_packets = (g.file_size + 255) / 256 ∧
      (g.file_size ≤ g.total_packets * 256 ∧ g.total_packets * 256 < g.file_size + 256) ∧
      g.total_packets ≤ 40 := by
  have hinit : (init_uart_receiver r).file_info.transfer_active = true →
      (init_uart_receiver r).file_info.file_size ≤ 10240 ∧
        (init_uart_receiver r).file_info.total_packets =
          ((init_uart_receiver r).file_info.file_size + 255) / 256 := by
    intro h
    exact absurd h Bool.false_ne_true
  obtain ⟨h1, h2⟩ := run_keeps_invariant calls _ g ev hrun hinit hact
  refine ⟨h1, h2, ?_, ?_⟩ <;> omega

/-- C12 after Scenario 1: the session is active with `file_size = 10` and
`total_packets = 1`. -/
theorem active_session_invariant_witness :
    session_started.transfer_active = true ∧ session_started.file_size ≤ 10240 ∧
      session_started.total_packets = (session_started.file_size + 255) / 256 ∧
      session_started.total_packets ≤ 40 := by
  obtain ⟨h1, h2, _, h4⟩ := active_session_invariant initial
    [⟨Handler.file_start, scenario1_frame, 13⟩] session_started READY (by rfl) rfl
  exact ⟨rfl, h1, h2, h4⟩

/-! ## C11: FILE_START while a session is active -/

theorem session_with_data_first : session_with_data.file_data[0]? = some 1 := by
  show (ten_bytes ++ List.replicate 10230 0)[0]? = some 1
  rw [List.getElem?_append_left (by decide)]
  rfl

theorem session_b_first : session_b.file_data[0]? = some 0 :=
  List.getElem?_replicate_of_lt (by decide)

/-- C11 as stated fails: on the active session of Scenarios 1 and 2 the
well-formed FILE_START for `"b.txt"`, size 300, is answered with READY, and the
filename, `file_size`, `total_packets`, `received_packets` and buffer of the
running transfer are replaced. -/
theorem file_start_accepted_while_active :
    session_with_data.transfer_active = true ∧
    handle_file_start session_with_data second_start_frame 13 = some (session_b, READY) ∧
    session_with_data.file_size = 10 ∧ session_b.file_size = 300 ∧
    session_with_data.received_packets = 1 ∧ session_b.received_packets = 0 ∧
    session_with_data.file_data[0]? = some 1 ∧ session_b.file_data[0]? = some 0 ∧
    session_with_data.filename[0]? = some 97 ∧ session_b.filename[0]? = some 98 := by
  refine ⟨rfl, by rfl, rfl, rfl, rfl, rfl, session_with_data_first, session_b_first, by rfl,
    by rfl⟩

/-- C11, amended. `handle_file_start` does not look at `transfer_active`: for
every active session, every filename of length `n ≤ 63` and every declared size
`s ≤ 10240`, the frame `[0x81, 0x90, n, filename, s as 4 big-endian bytes, c]`
with the right checksum `c` is answered with READY and replaces the running
session: the filename array starts with the new filename and a zero byte,
`file_size = s`, `total_packets = ceil (s / 256)`, `received_packets = 0`, the
buffer is all zero and `transfer_active` stays true. -/
theorem file_start_replaces_active_session (f : file_transfer_t) (fn : List Nat) (s : Nat)
    (_hact : f.transfer_active = true) (hname : f.filename.length = 64)
    (hn : fn.length ≤ 63) (hs : s ≤ 10240) :
    ∃ name, handle_file_start f
        (file_start_frame fn s (checksum ([0x81, 0x90, fn.length] ++ fn ++ be32_bytes s)))
        (8 + fn.length) =
          some ({ filename := name, file_size := s, total_packets := (s + 255) / 256,
                  received_packets := 0, file_data := List.replicate 10240 0,
                  transfer_active := true }, READY) ∧
      name.length = 64 ∧ name.take fn.length = fn ∧ name[fn.length]? = some 0 ∧
      ∀ i, fn.length < i → name[i]? = f.filename[i]? := by
  obtain ⟨h3, h2, h1, h0, hc⟩ := file_start_frame_size_bytes fn s
    (checksum ([0x81, 0x90, fn.length] ++ fn ++ be32_bytes s))
  obtain ⟨name, hl, hget, heq⟩ := handle_file_start_eq f _ (8 + fn.length) fn.length _ _ _ _
    (by omega) (file_start_frame_len_byte fn s _) hn (by omega) hname h3 h2 h1 h0
  have hsz := be32_be32_bytes s (by omega)
  have hsmall : ¬ s > 10240 := by omega
  have htp : ((s + 256 - 1) % 2 ^ 32 / 256) % 2 ^ 16 = (s + 255) / 256 := by omega
  rw [hsz] at heq
  rw [if_neg hsmall, hc, Option.some_bind, file_start_frame_take, htp] at heq
  have hck : checksum ([0x81, 0x90, fn.length] ++ fn ++ be32_bytes s) =
      ([UART_HEADER, CMD_FILE_START, fn.length] ++ fn ++ be32_bytes s).sum % 256 := rfl
  rw [if_pos hck] at heq
  refine ⟨name, heq, hl, ?_, ?_, ?_⟩
  · apply List.ext_getElem?
    intro i
    by_cases hi : i < fn.length
    · rw [List.getElem?_take_of_lt hi, hget i, if_pos hi, file_start_frame_name fn s _ i hi]
    · rw [List.getElem?_take_eq_none (by omega), List.getElem?_eq_none (by omega)]
  · rw [hget]
    simp
  · intro i hi
    rw [hget i, if_neg (by omega), if_neg (by omega)]

/-- C11 amended, at the session of Scenarios 1 and 2 and the frame for
`"b.txt"`: READY is sent and the session now declares 300 bytes in 2 packets. -/
theorem file_start_replaces_active_session_witness :
    ∃ name, handle_file_start session_with_data second_start_frame 13 =
        some ({ filename := name, file_size := 300, total_packets := 2,
                received_packets := 0, file_data := List.replicate 10240 0,
                transfer_active := true }, READY) ∧
      name.take 5 = b_txt := by
  obtain ⟨name, h, _, ht, _⟩ := file_start_replaces_active_session session_with_data b_txt 300
    rfl rfl (by decide) (by decide)
  exact ⟨name, h, ht⟩

/-! ## C17: the length checks of `handle_file_start` -/

/-- C17, evaluated at a packet one byte short. With `length = 8` and
`packet[2] = 1` the required frame length is 9, yet the length checks pass.
The handler then reads `packet[8]`, which is outside an 8-byte array; when the
memory behind the packet holds `0x7D` there, READY is sent and a session is
opened, and when it holds `0x00`, NACK is sent but the session has been
overwritten. -/
theorem short_file_start_not_rejected :
    short_start_packet.length = 8 ∧ short_start_packet[2]? = some 1 ∧ 8 < 3 + 1 + 4 + 1 ∧
    handle_file_start zero_file_info short_start_packet 8 = none ∧
    handle_file_start zero_file_info (short_start_packet ++ [0x7D]) 8 =
      some (session_short, READY) ∧
    handle_file_start zero_file_info (short_start_packet ++ [0x00]) 8 =
      some ({ session_short with transfer_active := false }, NACK) ∧
    session_short ≠ zero_file_info := by
  refine ⟨rfl, rfl, by decide, by rfl, by rfl, by rfl, ?_⟩
  intro h
  exact absurd (congrArg file_transfer_t.file_size h) (by decide)

/-! ## C18: the session after a checksum failure -/

/-- C18 as stated fails: on the active session of Scenarios 1 and 2, a FILE_END
whose checksum byte is `0xFF` is answered with NACK and only `transfer_active`
is cleared; the filename, `file_size = 10`, both counters and the buffered bytes
stay. -/
theorem failed_file_end_keeps_data :
    session_with_data.transfer_active = true ∧
    handle_file_end session_with_data (file_end_frame 0 1 0xFF) 5 =
      some (session_aborted, NACK) ∧
    session_aborted.file_size = 10 ∧ session_aborted.total_packets = 1 ∧
    session_aborted.received_packets = 1 ∧ session_aborted.filename[0]? = some 97 ∧
    session_aborted.file_data[0]? = some 1 ∧ session_aborted ≠ zero_file_info := by
  refine ⟨rfl, by rfl, rfl, rfl, rfl, by rfl, session_with_data_first, ?_⟩
  intro h
  exact absurd (congrArg file_transfer_t.file_size h) (by decide)

/-- C18, amended. For every active session, a checksum mismatch makes
`handle_file_end` send NACK and clear `transfer_active` only: filename,
`file_size`, `total_packets`, `received_packets` and every buffer byte are kept.
A checksum mismatch in `handle_file_start` (frame past the length and size
checks) sends NACK and leaves `transfer_active = false`, `received_packets = 0`
and the buffer all zero, while the filename array, `file_size` and
`total_packets` hold the values of the rejected frame. -/
theorem checksum_failure_state (f : file_transfer_t) (packet : List Nat)
    (length : Nat) (hact : f.transfer_active = true) (hname : f.filename.length = 64) :
    (∀ hi lo c, 5 ≤ length → packet[2]? = some hi → packet[3]? = some lo →
      packet[4]? = some c → c ≠ (packet.take 4).sum % 256 →
      handle_file_end f packet length = some ({ f with transfer_active := false }, NACK)) ∧
    (∀ n b3 b2 b1 b0 c, 8 ≤ length → packet[2]? = some n → n ≤ 63 → 7 + n ≤ length →
      packet[3 + n]? = some b3 → packet[4 + n]? = some b2 → packet[5 + n]? = some b1 →
      packet[6 + n]? = some b0 → be32 b3 b2 b1 b0 ≤ 10240 → packet[7 + n]? = some c →
      c ≠ (packet.take (7 + n)).sum % 256 →
      ∃ name, handle_file_start f packet length =
          some ({ filename := name, file_size := be32 b3 b2 b1 b0,
                  total_packets := (be32 b3 b2 b1 b0 + 255) / 256,
                  received_packets := 0, file_data := List.replicate 10240 0,
                  transfer_active := false }, NACK) ∧
        name.length = 64 ∧
        ∀ i, name[i]? =
          if i < n then packet[3 + i]? else if i = n then some 0 else f.filename[i]?) := by
  constructor
  · intro hi lo c h5 h2 h3 h4 hc
    rw [handle_file_end_eq f packet length hi lo c hact h5 h2 h3 h4, if_pos hc]
  · intro n b3 b2 b1 b0 c h8 h2 hn hl h3 h4 h5 h6 hsz h7 hc
    obtain ⟨name, hl64, hget, heq⟩ := handle_file_start_eq f packet length n b3 b2 b1 b0 h8 h2
      hn hl hname h3 h4 h5 h6
    have hsmall : ¬ be32 b3 b2 b1 b0 > 10240 := by omega
    have htp : ((be32 b3 b2 b1 b0 + 256 - 1) % 2 ^ 32 / 256) % 2 ^ 16 =
        (be32 b3 b2 b1 b0 + 255) / 256 := by omega
    rw [if_neg hsmall, h7, Option.some_bind, if_neg hc, htp] at heq
    exact ⟨name, heq, hl64, hget⟩

/-- C18 amended, on the session of Scenarios 1 and 2: a FILE_END with checksum
byte `0xFF` leaves the session with its data and only inactive. -/
theorem checksum_failure_state_witness :
    handle_file_end session_with_data (file_end_frame 0 1 0xFF) 5 =
      some ({ session_with_data with transfer_active := false }, NACK) :=
  (checksum_failure_state session_with_data (file_end_frame 0 1 0xFF) 5 rfl rfl).1
    0 1 0xFF (by decide) rfl rfl rfl (by decide)

/-! ## C23: the receive loop never reaches a handler -/

/-- With two bytes buffered the expected length is 0 (FILE_START, FILE_DATA
and unknown commands) or 5 (FILE_END), so the completion test
`expected_length > 0 && buffer_index >= expected_length` is false. -/
theorem expected_length_at_two (buf : List Nat) (cmd : Nat) :
    (expected_length buf 2 cmd = some 0 ∨ expected_length buf 2 cmd = some 5) ∧
    ∀ e, expected_length buf 2 cmd = some e → ¬ (e > 0 ∧ 2 ≥ e) := by
  by_cases c1 : cmd = CMD_FILE_START
  · subst c1
    refine ⟨Or.inl (by simp [expected_length]), ?_⟩
    intro e he
    simp [expected_length] at he
    omega
  · by_cases c2 : cmd = CMD_FILE_DATA
    · subst c2
      refine ⟨Or.inl (by simp [expected_length, CMD_FILE_DATA, CMD_FILE_START]), ?_⟩
      intro e he
      simp [expected_length, CMD_FILE_DATA, CMD_FILE_START] at he
      omega
    · by_cases c3 : cmd = CMD_FILE_END
      · subst c3
        refine ⟨Or.inr (by simp [expected_length, CMD_FILE_END, CMD_FILE_DATA,
          CMD_FILE_START]), ?_⟩
        intro e he
        simp [expected_length, CMD_FILE_END, CMD_FILE_DATA, CMD_FILE_START] at he
        omega
      · refine ⟨Or.inl (by simp [expected_length, c1, c2, c3]), ?_⟩
        intro e he
        simp [expected_length, c1, c2, c3] at he
        omega

/-- C23. For every finite byte sequence, with or without `0x81` bytes and
well-formed frames included, feeding it byte by byte from the initialised state
returns with an empty trace: no handler invocation, no transmitted byte, no
`save_file` call, and the session is still the zeroed one. The expected frame
length is computed only in the step that brings `buffer_index` to 2, where it is
0 or 5 and the completion test fails. The loop of
`nuvoton_uart_file_receiver.c` is the same code, so this embedding covers both
files. -/
theorem receive_path_never_dispatches (bs : List Nat) :
    ∃ r ev, feed initial bs = some (r, ev) ∧ ev = [] ∧ handler_calls ev = [] ∧
      sent_bytes ev = [] ∧ save_calls ev = [] ∧ r.file_info = zero_file_info ∧
      ∀ buf cmd, (expected_length buf 2 cmd = some 0 ∨ expected_length buf 2 cmd = some 5) ∧
        ∀ e, expected_length buf 2 cmd = some e → ¬ (e > 0 ∧ 2 ≥ e) := by
  obtain ⟨r, hfeed, _, _, hinfo⟩ := feed_total bs initial (List.length_replicate _ _)
    (by show 0 ≤ 256; omega)
  exact ⟨r, [], hfeed, rfl, rfl, rfl, rfl, hinfo, expected_length_at_two⟩

/-- C23 on a whole transfer: the frames of Scenarios 1, 2 and 3 sent in a row
produce no event and leave the session zeroed. -/
theorem receive_path_never_dispatches_witness :
    ∃ r, feed initial (scenario1_frame ++ scenario2_frame ++ scenario3_frame) = some (r, []) ∧
      r.file_info = zero_file_info := by
  obtain ⟨r, ev, h, hev, _, _, _, hinfo, _⟩ :=
    receive_path_never_dispatches (scenario1_frame ++ scenario2_frame ++ scenario3_frame)
  rw [hev] at h
  exact ⟨r, h, hinfo⟩

/-! ## C21: one response per invocation -/

theorem READY_ne_NACK : READY ≠ NACK := by decide

theorem ACK_ne_NACK : ACK ≠ NACK := by decide

/-- On a packet that passes every check, a returning `handle_file_data` has
sent ACK. -/
theorem handle_file_data_ack_of_checks (f g : file_transfer_t) (packet : List Nat)
    (length : Nat) (ev : List Event) (h : handle_file_data f packet length = some (g, ev))
    (hpass : data_checks_pass f packet length) : ev = ACK := by
  obtain ⟨hact, h6, hi, lo, dl, h2, h3, h4, hdl, hlen, hfit, hc⟩ := hpass
  have hplen : 5 + dl < packet.length := by
    rcases List.getElem?_eq_some.mp hc with ⟨h', _⟩
    exact h'
  have hB : ¬ (dl > 256 ∨ length < 5 + dl + 1) := by omega
  rw [handle_file_data_eq f packet length hi lo dl hact h6 h2 h3 h4, if_neg hB, if_neg hfit,
    hc, calculate_crc_eq packet (5 + dl) (by omega)] at h
  cases hm : memcpy f.file_data (data_offset (be16 hi lo)) packet 5 dl with
  | none => simp only [hm, Option.none_bind, reduceCtorEq] at h
  | some data =>
    simp only [hm, Option.some_bind, if_true, Option.some.injEq, Prod.mk.injEq] at h
    exact h.2.symm

/-- A `handle_file_start` on a packet that has its `length` bytes returns,
except when `length = 7 + filename_len`: then its checks pass and the checksum
index `7 + filename_len` equals `length`. -/
theorem handle_file_start_returns (f : file_transfer_t) (packet : List Nat) (length : Nat)
    (hname : f.filename.length = 64) (hlen : length ≤ packet.length)
    (hwire : ∀ n, packet[2]? = some n → n ≤ 63 → 8 ≤ length → length ≠ 7 + n) :
    ∃ g ev, handle_file_start f packet length = some (g, ev) := by
  by_cases hA : length < 8
  · exact ⟨f, NACK, by simp [handle_file_start, hA, send_nack_eq]⟩
  · obtain ⟨n, e2⟩ : ∃ n, packet[2]? = some n := ⟨_, List.getElem?_eq_getElem (by omega)⟩
    by_cases hB : n > MAX_FILENAME_LEN - 1 ∨ length < 7 + n
    · exact ⟨f, NACK, by simp [handle_file_start, hA, e2, hB, send_nack_eq]⟩
    · simp only [MAX_FILENAME_LEN] at hB
      have hne := hwire n e2 (by omega) (by omega)
      obtain ⟨b3, e3⟩ : ∃ b, packet[3 + n]? = some b := ⟨_, List.getElem?_eq_getElem (by omega)⟩
      obtain ⟨b2, e4⟩ : ∃ b, packet[4 + n]? = some b := ⟨_, List.getElem?_eq_getElem (by omega)⟩
      obtain ⟨b1, e5⟩ : ∃ b, packet[5 + n]? = some b := ⟨_, List.getElem?_eq_getElem (by omega)⟩
      obtain ⟨b0, e6⟩ : ∃ b, packet[6 + n]? = some b := ⟨_, List.getElem?_eq_getElem (by omega)⟩
      obtain ⟨c, e7⟩ : ∃ b, packet[7 + n]? = some b := ⟨_, List.getElem?_eq_getElem (by omega)⟩
      obtain ⟨name, _, _, heq⟩ := handle_file_start_eq f packet length n b3 b2 b1 b0
        (by omega) e2 (by omega) (by omega) hname e3 e4 e5 e6
      rw [e7, Option.some_bind] at heq
      rw [heq]
      by_cases hbig : be32 b3 b2 b1 b0 > 10240
      · exact ⟨_, _, if_pos hbig⟩
      · rw [if_neg hbig]
        by_cases hc : c = (packet.take (7 + n)).sum % 256
        · exact ⟨_, _, if_pos hc⟩
        · exact ⟨_, _, if_neg hc⟩

/-- The responses of the three handlers. Each returning invocation transmits
exactly one three-byte response frame: `handle_file_start` sends READY when
every one of its checks passes and NACK otherwise, `handle_file_data` sends ACK
when every one of its checks passes and NACK otherwise, `handle_file_end` sends
ACK (after its one `save_file` call) when every one of its checks passes and
NACK otherwise. `handle_file_data` and `handle_file_end` return on every packet
that has its `length` bytes; `handle_file_start` returns on such a packet unless
its checks pass with the checksum index `7 + filename_len` at the end of the
array, which happens only for `length = 7 + filename_len`. -/
theorem handler_responses (f : file_transfer_t) (packet : List Nat) (length : Nat) :
    (∀ g ev, handle_file_start f packet length = some (g, ev) →
      (ev = READY ∨ ev = NACK) ∧ (ev = READY ↔ start_checks_pass packet length)) ∧
    (∀ g ev, handle_file_data f packet length = some (g, ev) →
      (ev = ACK ∨ ev = NACK) ∧ (ev = ACK ↔ data_checks_pass f packet length)) ∧
    (∀ g ev, handle_file_end f packet length = some (g, ev) →
      (ev = Event.save f.filename f.file_data f.file_size :: ACK ∨ ev = NACK) ∧
      (sent_bytes ev = [0x81, 0x93, 0x14] ∨ sent_bytes ev = [0x81, 0x94, 0x15]) ∧
      (sent_bytes ev = [0x81, 0x93, 0x14] ↔ end_checks_pass f packet length)) ∧
    (sent_bytes READY = [0x81, 0x95, 0x16] ∧ sent_bytes ACK = [0x81, 0x93, 0x14] ∧
      sent_bytes NACK = [0x81, 0x94, 0x15]) ∧
    (f.filename.length = 64 → length ≤ packet.length →
      (∀ n, packet[2]? = some n → n ≤ 63 → 8 ≤ length → length ≠ 7 + n) →
      ∃ g ev, handle_file_start f packet length = some (g, ev)) ∧
    (f.file_data.length = 10240 → IsBytes packet → length ≤ packet.length →
      ∃ g ev, handle_file_data f packet length = some (g, ev)) ∧
    (length ≤ packet.length → ∃ g ev, handle_file_end f packet length = some (g, ev)) := by
  refine ⟨?_, ?_, ?_, ⟨rfl, rfl, rfl⟩, handle_file_start_returns f packet length, ?_,
    handle_file_end_total f packet length⟩
  · intro g ev h
    rcases handle_file_start_cases f g packet length ev h with
      ⟨h8, _, rfl⟩ | ⟨n, h8, h2, ⟨hbad, _, rfl⟩ | ⟨hn, hl, name, b3, b2, b1, b0, _, h3, h4, h5,
        h6, ⟨hbig, _, rfl⟩ | ⟨hsz, c, h7, ⟨hc, rfl, _⟩ | ⟨hc, rfl, _⟩⟩⟩⟩
    · refine ⟨Or.inr rfl, ⟨fun hr => absurd hr NACK_ne_READY, ?_⟩⟩
      rintro ⟨h8', _⟩
      omega
    · refine ⟨Or.inr rfl, ⟨fun hr => absurd hr NACK_ne_READY, ?_⟩⟩
      rintro ⟨_, n', _, _, _, _, h2', hn', hl', _⟩
      rw [h2] at h2'
      cases h2'
      omega
    · refine ⟨Or.inr rfl, ⟨fun hr => absurd hr NACK_ne_READY, ?_⟩⟩
      rintro ⟨_, n', b3', b2', b1', b0', h2', _, _, h3', h4', h5', h6', hsz', _⟩
      rw [h2] at h2'
      cases h2'
      rw [h3] at h3'
      rw [h4] at h4'
      rw [h5] at h5'
      rw [h6] at h6'
      cases h3'
      cases h4'
      cases h5'
      cases h6'
      omega
    · refine ⟨Or.inl rfl, ⟨fun _ => ?_, fun _ => rfl⟩⟩
      exact ⟨h8, n, b3, b2, b1, b0, h2, hn, hl, h3, h4, h5, h6, hsz, by rw [h7, hc]⟩
    · refine ⟨Or.inr rfl, ⟨fun hr => absurd hr NACK_ne_READY, ?_⟩⟩
      rintro ⟨_, n', _, _, _, _, h2', _, _, _, _, _, _, _, h7'⟩
      rw [h2] at h2'
      cases h2'
      rw [h7] at h7'
      exact absurd (Option.some.inj h7') hc
  · intro g ev h
    refine ⟨?_, ⟨?_, handle_file_data_ack_of_checks f g packet length ev h⟩⟩
    · rcases handle_file_data_cases f g packet length ev h with
        ⟨_, rfl⟩ | ⟨_, hi, lo, dl, data, c, _, _, _, _, _, _, _, _,
          ⟨_, rfl, _⟩ | ⟨_, rfl, _⟩⟩
      · exact Or.inr rfl
      · exact Or.inl rfl
      · exact Or.inr rfl
    · intro hack
      rcases handle_file_data_cases f g packet length ev h with
        ⟨_, rfl⟩ | ⟨hact, hi, lo, dl, data, c, h2, h3, h4, hdl, hlen, hfit, _, hc,
          ⟨hcc, _, _⟩ | ⟨_, rfl, _⟩⟩
      · exact absurd hack.symm ACK_ne_NACK
      · exact ⟨hact, by omega, hi, lo, dl, h2, h3, h4, hdl, hlen, hfit, by rw [hc, hcc]⟩
      · exact absurd hack.symm ACK_ne_NACK
  · intro g ev h
    rcases handle_file_end_cases f g packet length ev h with
      ⟨hno, _, rfl⟩ | ⟨hact, h5, c, hc, ⟨hne, rfl, _⟩ | ⟨heq, rfl, _⟩⟩
    · refine ⟨Or.inr rfl, Or.inr rfl, ⟨fun hs => absurd hs (by decide), ?_⟩⟩
      rintro ⟨hact, h5, _⟩
      rcases hno with hno | hno
      · rw [hact] at hno
        exact absurd hno (by decide)
      · omega
    · refine ⟨Or.inr rfl, Or.inr rfl, ⟨fun hs => absurd hs (by decide), ?_⟩⟩
      rintro ⟨_, _, h4⟩
      rw [hc] at h4
      exact absurd (Option.some.inj h4) hne
    · exact ⟨Or.inl rfl, Or.inl rfl, ⟨fun _ => ⟨hact, h5, by rw [hc, heq]⟩, fun _ => rfl⟩⟩
  · intro hbuf hbytes hlen
    obtain ⟨g, ev, h, _⟩ := handle_file_data_total f packet length hbuf hbytes hlen
    exact ⟨g, ev, h⟩

/-- The responses on the scenarios: Scenario 1 passes every check of
`handle_file_start`, the FILE_END of Scenario 3 transmits the ACK bytes only,
and the FILE_DATA of Scenario 2 does not pass on the zeroed inactive session. -/
theorem handler_responses_scenarios :
    start_checks_pass scenario1_frame 13 ∧
    (∃ g ev, handle_file_start zero_file_info scenario1_frame 13 = some (g, ev)) ∧
    sent_bytes (Event.save session_started.filename session_started.file_data
      session_started.file_size :: ACK) = [0x81, 0x93, 0x14] ∧
    ¬ data_checks_pass zero_file_info scenario2_frame 16 := by
  refine ⟨?_, ?_, ?_, ?_⟩
  · exact ((handler_responses zero_file_info scenario1_frame 13).1 _ _
      scenario1_run).2.mp rfl
  · refine (handler_responses zero_file_info scenario1_frame 13).2.2.2.2.1
      (List.length_replicate _ _) (by decide) ?_
    intro n hn _ _
    have h5 : scenario1_frame[2]? = some 5 := rfl
    rw [h5] at hn
    cases hn
    decide
  · rcases ((handler_responses session_started scenario3_frame 5).2.2.1 _ _
      scenario3_run).2.1 with h | h
    · exact h
    · exact absurd h (by decide)
  · intro hpass
    have h := ((handler_responses zero_file_info scenario2_frame 16).2.1
      zero_file_info NACK (by rfl)).2.mpr hpass
    exact absurd h (by decide)

/-- A `memcpy` that succeeds keeps the size of the destination and every byte
outside `[doff, doff + n)`. -/
theorem memcpy_outside (dst : List Nat) (doff : Nat) (src : List Nat) (soff : Nat) :
    ∀ n d, memcpy dst doff src soff n = some d →
      d.length = dst.length ∧ ∀ i, ¬ (doff ≤ i ∧ i < doff + n) → d[i]? = dst[i]? := by
  intro n
  induction n with
  | zero =>
    intro d h
    simp only [memcpy, Option.some.injEq] at h
    subst h
    exact ⟨rfl, fun _ _ => rfl⟩
  | succ n ih =>
    intro d h
    cases hm : memcpy dst doff src soff n with
    | none => simp [memcpy, hm] at h
    | some d0 =>
      obtain ⟨hl, hout⟩ := ih d0 hm
      cases hs : src[soff + n]? with
      | none => simp [memcpy, hm, hs] at h
      | some v =>
        by_cases hlt : doff + n < d0.length
        · simp only [memcpy, hm, hs, hlt, if_true, Option.some.injEq] at h
          subst h
          refine ⟨by rw [List.length_set, hl], ?_⟩
          intro i hi
          rw [List.getElem?_set_ne (by omega)]
          exact hout i (by omega)
        · simp [memcpy, hm, hs, hlt] at h

/-- The 32-bit write offset is a multiple of 256 for every sequence number. -/
theorem data_offset_mod (q : Nat) : data_offset q % 256 = 0 := by
  unfold data_offset PACKET_DATA_SIZE
  omega

/-- One handler invocation on a packet of bytes keeps: the buffer has 10240
bytes and is 0 at every index `i` with `i % 256 = 255`. -/
theorem invoke_keeps_gaps (f g : file_transfer_t) (c : Invocation) (ev : List Event)
    (h : invoke f c = some (g, ev)) (hbytes : IsBytes c.packet)
    (hinv : f.file_data.length = 10240 ∧
      ∀ i, i % 256 = 255 → i < 10240 → f.file_data[i]? = some 0) :
    g.file_data.length = 10240 ∧
      ∀ i, i % 256 = 255 → i < 10240 → g.file_data[i]? = some 0 := by
  have hzero : (List.replicate 10240 0).length = 10240 ∧
      ∀ i, i % 256 = 255 → i < 10240 → (List.replicate 10240 0)[i]? = some 0 :=
    ⟨List.length_replicate _ _, fun i _ hi => List.getElem?_replicate_of_lt hi⟩
  obtain ⟨hd, packet, length⟩ := c
  cases hd with
  | file_start =>
    rcases handle_file_start_cases f g packet length ev h with
      ⟨_, rfl, _⟩ | ⟨n, _, _, ⟨_, rfl, _⟩ | ⟨_, _, name, b3, b2, b1, b0, _, _, _, _, _,
        ⟨_, rfl, _⟩ | ⟨_, c, _, ⟨_, _, rfl⟩ | ⟨_, _, rfl⟩⟩⟩⟩
    · exact hinv
    · exact hinv
    · exact hinv
    · exact hzero
    · exact hzero
  | file_data =>
    rcases handle_file_data_cases f g packet length ev h with
      ⟨rfl, _⟩ | ⟨_, hi, lo, dl, data, c, _, _, h4, _, _, hfit, hm, _, hg⟩
    · exact hinv
    · have hdl : dl < 256 := hbytes dl (List.getElem?_mem h4)
      have hq := (bounds_check_iff _ dl (be16_lt hi lo) hdl).mp hfit
      have hoff := data_offset_pos _ hq.1 (be16_lt hi lo)
      obtain ⟨hl, hout⟩ := memcpy_outside _ _ _ _ dl data hm
      have hdata : data.length = 10240 ∧
          ∀ i, i % 256 = 255 → i < 10240 → data[i]? = some 0 := by
        refine ⟨by rw [hl]; exact hinv.1, ?_⟩
        intro i hmod hi'
        rw [hout i (by rw [hoff]; omega)]
        exact hinv.2 i hmod hi'
      rcases hg with ⟨_, _, rfl⟩ | ⟨_, _, rfl⟩
      · exact hdata
      · exact hdata
  | file_end =>
    rcases handle_file_end_cases f g packet length ev h with
      ⟨_, rfl, _⟩ | ⟨_, _, c, _, ⟨_, _, rfl⟩ | ⟨_, _, rfl⟩⟩
    · exact hinv
    · exact hinv
    · exact hzero

theorem run_keeps_gaps (calls : List Invocation) :
    ∀ (f g : file_transfer_t) (ev : List Event), run f calls = some (g, ev) →
      (∀ c ∈ calls, IsBytes c.packet) →
      (f.file_data.length = 10240 ∧
        ∀ i, i % 256 = 255 → i < 10240 → f.file_data[i]? = some 0) →
      g.file_data.length = 10240 ∧
        ∀ i, i % 256 = 255 → i < 10240 → g.file_data[i]? = some 0 := by
  induction calls with
  | nil =>
    intro f g ev h _ hinv
    simp only [run, Option.some.injEq, Prod.mk.injEq] at h
    rw [← h.1]
    exact hinv
  | cons c cs ih =>
    intro f g ev h hbytes hinv
    cases h1 : invoke f c with
    | none => simp [run, h1] at h
    | some p =>
      obtain ⟨f1, ev1⟩ := p
      cases h2 : run f1 cs with
      | none => simp [run, h1, h2] at h
      | some q =>
        obtain ⟨f2, ev2⟩ := q
        simp only [run, h1, h2, Option.some.injEq, Prod.mk.injEq] at h
        rw [← h.1]
        exact ih f1 f2 ev2 h2 (fun d hd => hbytes d (List.mem_cons_of_mem _ hd))
          (invoke_keeps_gaps f f1 c ev1 h1 (hbytes c (List.mem_cons_self _ _)) hinv)

/-- C24. In every state reached from the state `init_uart_receiver` leaves by a
finite sequence of handler invocations on arbitrary packets of bytes, every
buffer byte at an index `i < 10240` with `i mod 256 = 255` is 0: write offsets
are multiples of 256 and a one-byte data length is at most 255, so the test
`data_len > 256` never fires. Hence whatever `handle_file_end` hands to
`save_file` from such a state is 0 at every such index below the size passed. -/
theorem gap_bytes_stay_zero (r : Receiver) (calls : List Invocation) (g : file_transfer_t)
    (ev : List Event) (hbytes : ∀ c ∈ calls, IsBytes c.packet)
    (hrun : run (init_uart_receiver r).file_info calls = some (g, ev)) :
    (∀ i, i % 256 = 255 → i < 10240 → g.file_data[i]? = some 0) ∧
    (∀ packet length g' ev' name data size,
      handle_file_end g packet length = some (g', ev') →
      Event.save name data size ∈ ev' →
      ∀ i, i % 256 = 255 → i < size → data[i]? = some 0) ∧
    (∀ q, data_offset q % 256 = 0) ∧ (∀ dl, dl < 256 → ¬ dl > PACKET_DATA_SIZE) := by
  have hzero : (init_uart_receiver r).file_info.file_data.length = 10240 ∧
      ∀ i, i % 256 = 255 → i < 10240 →
        (init_uart_receiver r).file_info.file_data[i]? = some 0 :=
    ⟨List.length_replicate _ _, fun i _ hi => List.getElem?_replicate_of_lt hi⟩
  obtain ⟨_, hgap⟩ := run_keeps_gaps calls _ g ev hrun hbytes hzero
  refine ⟨hgap, ?_, data_offset_mod, ?_⟩
  · intro packet length g' ev' name data size hend hmem i hmod hi
    rcases handle_file_end_cases g g' packet length ev' hend with
      ⟨_, _, rfl⟩ | ⟨hact, _, c, _, ⟨_, rfl, _⟩ | ⟨_, rfl, _⟩⟩
    · simp [NACK] at hmem
    · simp [NACK] at hmem
    · simp only [ACK, List.mem_cons, Event.save.injEq, reduceCtorEq, List.mem_singleton,
        or_false, List.not_mem_nil] at hmem
      obtain ⟨_, rfl, rfl⟩ := hmem
      have hsize := (run_keeps_invariant calls _ g ev hrun
        (fun h => absurd h Bool.false_ne_true) hact).1
      exact hgap i hmod (by omega)
  · intro dl hdl
    simp only [PACKET_DATA_SIZE]
    omega

/-- The FILE_DATA frame of Scenario 2 on an active session whose buffer is zero
from index 10 on: ACK, the ten payload bytes at offset 0, the counter
incremented modulo 65536. -/
theorem scenario2_step (s : file_transfer_t) (hact : s.transfer_active = true)
    (hbuf : s.file_data.length = 10240)
    (hrest : ∀ i, 10 ≤ i → i < 10240 → s.file_data[i]? = some 0) :
    handle_file_data s scenario2_frame 16 =
      some ({ s with file_data := ten_bytes ++ List.replicate 10230 0,
                     received_packets := (s.received_packets + 1) % 2 ^ 16 }, ACK) := by
  have hchk : ¬ ((data_offset (be16 0 1) + 10) % 2 ^ 32 > MAX_FILE_SIZE) := by decide
  have hoff : data_offset (be16 0 1) = 0 := by decide
  obtain ⟨data, hl, _, _, hget, heq⟩ := handle_file_data_write s
    (file_data_frame 0 1 ten_bytes (checksum ([0x81, 0x91, 0, 1, 10] ++ ten_bytes)))
    16 0 1 10 _ hact hbuf rfl rfl rfl (by decide) (by decide)
    (file_data_frame_crc_byte 0 1 ten_bytes _) hchk
  rw [if_pos (by decide)] at heq
  have hdata : data = ten_bytes ++ List.replicate 10230 0 := by
    apply List.ext_getElem?
    intro i
    rw [hget i, hoff]
    by_cases hi : i < 10
    · have hin : 0 ≤ i ∧ i < 0 + 10 := by omega
      have hi' : i < ten_bytes.length := hi
      rw [if_pos hin, Nat.sub_zero, file_data_frame_payload 0 1 ten_bytes _ i hi',
        List.getElem?_append_left hi']
    · have hout : ¬ (0 ≤ i ∧ i < 0 + 10) := by omega
      have hten : ten_bytes.length = 10 := rfl
      rw [if_neg hout, List.getElem?_append_right (by omega), hten, List.getElem?_replicate]
      by_cases hi2 : i < 10240
      · rw [hrest i (by omega) hi2, if_pos (by omega)]
      · rw [List.getElem?_eq_none (by omega), if_neg (by omega)]
  rw [hdata] at heq
  exact heq

theorem session_started_rest (i : Nat) (_h10 : 10 ≤ i) (hi : i < 10240) :
    session_started.file_data[i]? = some 0 :=
  List.getElem?_replicate_of_lt hi

theorem session_with_data_length : session_with_data.file_data.length = 10240 := by
  show (ten_bytes ++ List.replicate 10230 0).length = 10240
  rw [List.length_append, List.length_replicate]
  rfl

theorem session_with_data_rest (i : Nat) (h10 : 10 ≤ i) (hi : i < 10240) :
    session_with_data.file_data[i]? = some 0 := by
  have hten : ten_bytes.length = 10 := rfl
  show (ten_bytes ++ List.replicate 10230 0)[i]? = some 0
  rw [List.getElem?_append_right (by omega), hten]
  exact List.getElem?_replicate_of_lt (by omega)

/-- Scenarios 1 and 2 run in a row from the zeroed session. -/
theorem scenario12_run :
    run zero_file_info
      [⟨Handler.file_start, scenario1_frame, 13⟩, ⟨Handler.file_data, scenario2_frame, 16⟩] =
      some (session_with_data, READY ++ ACK) := by
  have h2 := scenario2_step session_started rfl (List.length_replicate _ _)
    session_started_rest
  have h2' : handle_file_data session_started scenario2_frame 16 =
      some (session_with_data, ACK) := h2
  simp only [run, invoke, scenario1_run, h2', List.append_nil]

/-- C24 after Scenarios 1 and 2: index 255 of the buffer holds 0, and so do all
the other indices congruent to 255 modulo 256. -/
theorem gap_bytes_stay_zero_witness :
    session_with_data.file_data[255]? = some 0 ∧ session_with_data.file_data[10239]? = some 0 := by
  obtain ⟨h, _⟩ := gap_bytes_stay_zero initial
    [⟨Handler.file_start, scenario1_frame, 13⟩, ⟨Handler.file_data, scenario2_frame, 16⟩]
    session_with_data (READY ++ ACK) (by decide) scenario12_run
  exact ⟨h 255 (by decide) (by decide), h 10239 (by decide) (by decide)⟩

/-! ## C22: what `received_packets` counts -/

/-- One invocation keeps: `received_packets` fits 16 bits and, on an active
session, equals modulo 65536 the number of acknowledged FILE_DATA frames since
the FILE_START that was answered with READY. -/
theorem invoke_keeps_count (f g : file_transfer_t) (c : Invocation) (ev : List Event) (n : Nat)
    (h : invoke f c = some (g, ev)) (hlt : f.received_packets < 65536)
    (hinv : f.transfer_active = true → f.received_packets = n % 65536) :
    g.received_packets < 65536 ∧
      (g.transfer_active = true → g.received_packets = count_step c ev n % 65536) := by
  obtain ⟨hd, packet, length⟩ := c
  cases hd with
  | file_start =>
    have hstep : ∀ e, count_step ⟨Handler.file_start, packet, length⟩ e n =
        if e = READY then 0 else n := fun _ => rfl
    rcases handle_file_start_cases f g packet length ev h with
      ⟨_, rfl, rfl⟩ | ⟨m, _, _, ⟨_, rfl, rfl⟩ | ⟨_, _, name, b3, b2, b1, b0, _, _, _, _, _,
        ⟨_, rfl, rfl⟩ | ⟨_, c, _, ⟨_, rfl, rfl⟩ | ⟨_, rfl, rfl⟩⟩⟩⟩
    · rw [hstep, if_neg NACK_ne_READY]
      exact ⟨hlt, hinv⟩
    · rw [hstep, if_neg NACK_ne_READY]
      exact ⟨hlt, hinv⟩
    · rw [hstep, if_neg NACK_ne_READY]
      exact ⟨hlt, hinv⟩
    · rw [hstep, if_pos rfl]
      exact ⟨by show 0 < 65536; omega, fun _ => rfl⟩
    · exact ⟨by show 0 < 65536; omega, fun hact => absurd hact Bool.false_ne_true⟩
  | file_data =>
    have hstep : ∀ e, count_step ⟨Handler.file_data, packet, length⟩ e n =
        if e = ACK then n + 1 else n := fun _ => rfl
    rcases handle_file_data_cases f g packet length ev h with
      ⟨rfl, rfl⟩ | ⟨hact, hi, lo, dl, data, c, _, _, _, _, _, _, _, _,
        ⟨_, rfl, rfl⟩ | ⟨_, rfl, rfl⟩⟩
    · rw [hstep, if_neg NACK_ne_ACK]
      exact ⟨hlt, hinv⟩
    · rw [hstep, if_pos rfl]
      have hf := hinv hact
      refine ⟨?_, fun _ => ?_⟩
      · show (f.received_packets + 1) % 2 ^ 16 < 65536
        omega
      · show (f.received_packets + 1) % 2 ^ 16 = (n + 1) % 65536
        omega
    · rw [hstep, if_neg NACK_ne_ACK]
      exact ⟨hlt, hinv⟩
  | file_end =>
    have hstep : ∀ e, count_step ⟨Handler.file_end, packet, length⟩ e n = n := fun _ => rfl
    rcases handle_file_end_cases f g packet length ev h with
      ⟨_, rfl, rfl⟩ | ⟨_, _, c, _, ⟨_, rfl, rfl⟩ | ⟨_, rfl, rfl⟩⟩
    · rw [hstep]
      exact ⟨hlt, hinv⟩
    · exact ⟨hlt, fun hact => absurd hact Bool.false_ne_true⟩
    · exact ⟨by show 0 < 65536; omega, fun hact => absurd hact Bool.false_ne_true⟩

/-- A run reaches the same state whether or not the count is carried, and the
count invariant holds at its end. -/
theorem run_keeps_count (calls : List Invocation) :
    ∀ (f g : file_transfer_t) (ev : List Event) (n : Nat), run f calls = some (g, ev) →
      f.received_packets < 65536 →
      (f.transfer_active = true → f.received_packets = n % 65536) →
      ∃ m, run_counting f n calls = some (g, m) ∧ g.received_packets < 65536 ∧
        (g.transfer_active = true → g.received_packets = m % 65536) := by
  induction calls with
  | nil =>
    intro f g ev n h hlt hinv
    simp only [run, Option.some.injEq, Prod.mk.injEq] at h
    rw [← h.1]
    exact ⟨n, rfl, hlt, hinv⟩
  | cons c cs ih =>
    intro f g ev n h hlt hinv
    cases h1 : invoke f c with
    | none => simp [run, h1] at h
    | some p =>
      obtain ⟨f1, ev1⟩ := p
      cases h2 : run f1 cs with
      | none => simp [run, h1, h2] at h
      | some q =>
        obtain ⟨f2, ev2⟩ := q
        simp only [run, h1, h2, Option.some.injEq, Prod.mk.injEq] at h
        rw [← h.1]
        obtain ⟨hlt1, hinv1⟩ := invoke_keeps_count f f1 c ev1 n h1 hlt hinv
        obtain ⟨m, hm, hlt2, hinv2⟩ := ih f1 f2 ev2 (count_step c ev1 n) h2 hlt1 hinv1
        exact ⟨m, by simp only [run_counting, h1, hm], hlt2, hinv2⟩

/-- C22, amended. For every finite sequence of handler invocations starting
from the state `init_uart_receiver` leaves, `received_packets` fits 16 bits and,
whenever the session is active, equals modulo 65536 the number of FILE_DATA
frames answered with ACK since the FILE_START that opened the session. An
invocation of `handle_file_data` from such a state leaves `received_packets`
unchanged or sets it to the old value plus one modulo 65536, so it does not
decrease it while it is below 65535. -/
theorem received_packets_counts_acks (r : Receiver) (calls : List Invocation)
    (g : file_transfer_t) (ev : List Event)
    (hrun : run (init_uart_receiver r).file_info calls = some (g, ev)) :
    ∃ n, run_counting (init_uart_receiver r).file_info 0 calls = some (g, n) ∧
      g.received_packets < 65536 ∧
      (g.transfer_active = true → g.received_packets = n % 65536) ∧
      ∀ packet length g' ev', handle_file_data g packet length = some (g', ev') →
        (g'.received_packets = g.received_packets ∨
          (ev' = ACK ∧ g'.received_packets = (g.received_packets + 1) % 65536)) ∧
        (g.received_packets < 65535 → g.received_packets ≤ g'.received_packets) := by
  obtain ⟨n, hn, hlt, hinv⟩ := run_keeps_count calls _ g ev 0 hrun
    (by show 0 < 65536; omega) (fun h => absurd h Bool.false_ne_true)
  refine ⟨n, hn, hlt, hinv, ?_⟩
  intro packet length g' ev' h
  rcases handle_file_data_cases g g' packet length ev' h with
    ⟨rfl, _⟩ | ⟨_, hi, lo, dl, data, c, _, _, _, _, _, _, _, _,
      ⟨_, rfl, rfl⟩ | ⟨_, _, rfl⟩⟩
  · exact ⟨Or.inl rfl, fun _ => Nat.le_refl _⟩
  · refine ⟨Or.inr ⟨rfl, rfl⟩, fun hsmall => ?_⟩
    show g.received_packets ≤ (g.received_packets + 1) % 2 ^ 16
    omega
  · exact ⟨Or.inl rfl, fun _ => Nat.le_refl _⟩

/-- The frame of Scenario 2 on the session of Scenarios 1 and 2 whose counter
is `k`: ACK, and the counter becomes `(k + 1) mod 65536`. -/
theorem data_session_step (k : Nat) :
    handle_file_data (data_session k) scenario2_frame 16 =
      some (data_session ((k + 1) % 2 ^ 16), ACK) :=
  scenario2_step (data_session k) rfl session_with_data_length session_with_data_rest

theorem run_counting_cons (f g : file_transfer_t) (c : Invocation) (ev : List Event) (n : Nat)
    (cs : List Invocation) (h : invoke f c = some (g, ev)) :
    run_counting f n (c :: cs) = run_counting g (count_step c ev n) cs := by
  simp only [run_counting, h]

/-- The frame of Scenario 2 sent `m` more times: `m` more ACKs, and the
counter is `(k + m) mod 65536`. -/
theorem run_counting_data (m : Nat) :
    ∀ k n, k < 65536 →
      run_counting (data_session k) n (List.replicate m data_call) =
        some (data_session ((k + m) % 65536), n + m) := by
  induction m with
  | zero =>
    intro k n hk
    have hk' : (k + 0) % 65536 = k := by omega
    rw [hk']
    rfl
  | succ m ih =>
    intro k n hk
    have hinv : invoke (data_session k) data_call =
        some (data_session ((k + 1) % 2 ^ 16), ACK) := data_session_step k
    have hcount : count_step data_call ACK n = n + 1 := rfl
    have hidx : ((k + 1) % 2 ^ 16 + m) % 65536 = (k + (m + 1)) % 65536 := by omega
    have hn : n + 1 + m = n + (m + 1) := by omega
    rw [List.replicate_succ]
    simp only [run_counting, hinv, hcount]
    rw [ih ((k + 1) % 2 ^ 16) (n + 1) (by omega), hidx, hn]

/-- C22 as stated fails. After the FILE_START of Scenario 1 and 65535
acknowledged FILE_DATA frames the session is active with `received_packets =
65535`; one more FILE_DATA frame is acknowledged and `received_packets` becomes
0: the invocation decreased it, and 65536 frames have been answered with ACK
since the FILE_START while the counter shows 0. -/
theorem received_packets_wraps_to_zero :
    run_counting zero_file_info 0 (start_call :: List.replicate 65535 data_call) =
      some (data_session 65535, 65535) ∧
    (data_session 65535).transfer_active = true ∧
    (data_session 65535).received_packets = 65535 ∧
    handle_file_data (data_session 65535) scenario2_frame 16 = some (data_session 0, ACK) ∧
    (data_session 0).received_packets = 0 ∧
    run_counting zero_file_info 0 (start_call :: List.replicate 65536 data_call) =
      some (data_session 0, 65536) ∧
    (data_session 0).transfer_active = true ∧ (data_session 0).received_packets ≠ 65536 := by
  have hstart : invoke zero_file_info start_call = some (session_started, READY) :=
    scenario1_run
  have hfirst : invoke session_started data_call = some (data_session 1, ACK) :=
    scenario2_step session_started rfl (List.length_replicate _ _) session_started_rest
  have hc0 : count_step start_call READY 0 = 0 := rfl
  have hc1 : count_step data_call ACK 0 = 1 := rfl
  have e1 : List.replicate 65535 data_call = data_call :: List.replicate 65534 data_call :=
    List.replicate_succ data_call 65534
  have e2 : List.replicate 65536 data_call = data_call :: List.replicate 65535 data_call :=
    List.replicate_succ data_call 65535
  refine ⟨?_, rfl, rfl, data_session_step 65535, rfl, ?_, rfl, by decide⟩
  · rw [e1, run_counting_cons _ _ _ _ _ _ hstart, hc0, run_counting_cons _ _ _ _ _ _ hfirst,
      hc1]
    exact run_counting_data 65534 1 1 (by omega)
  · rw [e2, run_counting_cons _ _ _ _ _ _ hstart, hc0, run_counting_cons _ _ _ _ _ _ hfirst,
      hc1]
    exact run_counting_data 65535 1 1 (by omega)

/-- C22 amended, after Scenarios 1 and 2: one FILE_DATA frame has been
acknowledged since the FILE_START and `received_packets` is 1. -/
theorem received_packets_counts_acks_witness :
    ∃ n, run_counting zero_file_info 0 [start_call, data_call] = some (session_with_data, n) ∧
      session_with_data.received_packets = n % 65536 ∧
      session_with_data.received_packets = 1 := by
  obtain ⟨n, hn, _, hinv, _⟩ := received_packets_counts_acks initial [start_call, data_call]
    session_with_data (READY ++ ACK) scenario12_run
  exact ⟨n, hn, hinv rfl, rfl⟩

end UartFileReceiver
